import Mathlib

/-!
Verification development for the eeprom-fs micro filesystem
(src/eeprom-fs/eeprom-fs.c, src/eeprom-fs/eeprom-fs.h).

The C code is shallowly embedded at the logical-block level: the EEPROM
data region is a map from logical block addresses to blocks (a `next`
pointer plus a 30-byte payload), the allocation table is kept twice (the
RAM cache `alloc_table` and its persisted mirror `e_alloc`), and the
metadata header is the persisted record `e_meta`.  Machine integers are
modelled as `Nat`/`Int`; `lba_t` (int16_t) becomes `Int`, `size_t` and
`uint16_t` become `Nat`, with an explicit `% 65536` at the single spot
where a size_t subtraction can wrap.  Stderr output (the `_fs_error` and
`_fs_debugN` sinks) is modelled as a list of messages, newest first;
`_fs_debugN` appends only when the debug level is at least N, `_fs_error`
always appends, exactly as in the C.

Sizes on the AVR target: `sizeof(lba_t) = 2`, `sizeof(size_t) = 2`,
`sizeof(uintptr_t) = 2`, hence `sizeof(fs_meta_t) = 10`,
`sizeof(file_alloc_t) = 4`, `EEPROM_FS_BLOCK_DATA_SIZE = 30`,
`EEPROM_FS_DATA_OFFSET = 130` and `EEPROM_FS_NUM_BLOCKS = 59`.

Out-of-range EEPROM accesses go through
`get_block_pointer(b) = DATA_OFFSET + (b * BLOCK_SIZE) % SIZE` with C's
truncated modulo, so they land in other regions of the 2048-byte image.
The 2-byte `next`-field store (`setBlockNext`, reached from `unlink` with
an unchecked chain tail) models this faithfully: positive wraps overwrite
another block's `next`, the addresses 98 / 66 / 34 (b ≡ -1, -2, -3 mod
64) overwrite the `filesize` field of persisted allocation entry 22 / 14
/ 6, address 2 (b ≡ -4) overwrites the metadata's `start_address`, and
addresses past either end of the image touch bytes that are not part of
the filesystem (the 30-byte slack after block 58, or memory outside the
image), leaving the modelled state unchanged.  Out-of-range reads
(`getBlock`) are modelled as a zero block; no theorem below exercises
such a read.  The loops of `read` and `last_block_in_chain` are do-while
loops following `next` pointers; they are embedded with a fuel counter
larger than the number of blocks, which is never exhausted in any of the
states considered below.
-/

namespace EepromFs

/-- `EEPROM_FS_SIZE` from eeprom-fs.h. -/
abbrev EEPROM_FS_SIZE : Nat := 2048

/-- `EEPROM_FS_BLOCK_SIZE` from eeprom-fs.h. -/
abbrev EEPROM_FS_BLOCK_SIZE : Nat := 32

/-- `EEPROM_FS_MAX_BLOCKS_PER_FILE` from eeprom-fs.h. -/
abbrev EEPROM_FS_MAX_BLOCKS_PER_FILE : Nat := 8

/-- `EEPROM_FS_MAX_FILES` from eeprom-fs.h. -/
abbrev EEPROM_FS_MAX_FILES : Nat := 29

/-- `sizeof(lba_t)` on the AVR target (int16_t). -/
abbrev sizeof_lba_t : Nat := 2

/-- `sizeof(fs_meta_t)`: five 2-byte fields on AVR. -/
abbrev sizeof_fs_meta_t : Nat := 10

/-- `sizeof(file_alloc_t)`: a 2-byte size_t plus a 2-byte lba_t. -/
abbrev sizeof_file_alloc_t : Nat := 4

/-- `EEPROM_FS_ALLOC_TABLE_OFFSET = sizeof(fs_meta_t)`. -/
abbrev EEPROM_FS_ALLOC_TABLE_OFFSET : Nat := sizeof_fs_meta_t

/-- `EEPROM_FS_DATA_OFFSET`: table of MAX_FILES + 1 entries after the header. -/
abbrev EEPROM_FS_DATA_OFFSET : Nat :=
  EEPROM_FS_ALLOC_TABLE_OFFSET + (EEPROM_FS_MAX_FILES + 1) * sizeof_file_alloc_t

/-- `EEPROM_FS_NUM_BLOCKS = (EEPROM_FS_SIZE - EEPROM_FS_DATA_OFFSET) / EEPROM_FS_BLOCK_SIZE` = 59. -/
abbrev EEPROM_FS_NUM_BLOCKS : Nat :=
  (EEPROM_FS_SIZE - EEPROM_FS_DATA_OFFSET) / EEPROM_FS_BLOCK_SIZE

/-- `EEPROM_FS_BLOCK_DATA_SIZE = EEPROM_FS_BLOCK_SIZE - sizeof(lba_t)` = 30. -/
abbrev EEPROM_FS_BLOCK_DATA_SIZE : Nat := EEPROM_FS_BLOCK_SIZE - sizeof_lba_t

/-- `NULL_PTR` from eeprom-fs.c. -/
abbrev NULL_PTR : Int := -1

/-- `block_t`: an on-medium block, a next pointer and BLOCK_DATA_SIZE payload bytes. -/
structure block_t where
  next_block : Int
  data : List Nat
deriving DecidableEq

/-- `file_alloc_t`: one allocation-table entry. -/
structure file_alloc_t where
  filesize : Nat
  data_block : Int
deriving DecidableEq

/-- `fs_meta_t`: the metadata header. -/
structure fs_meta_t where
  block_size : Nat
  start_address : Nat
  fs_size : Nat
  max_files : Nat
  max_blocks_per_file : Nat
deriving DecidableEq

/-- `enum handle_type`. -/
inductive handle_type where
  | FH_READ
  | FH_WRITE
  | FH_APPEND
deriving DecidableEq

/-- `file_handle_t`. -/
structure file_handle_t where
  filename : Nat
  filesize : Nat
  type : handle_type
  first_block : Int
  last_block : Int
deriving DecidableEq

/-- `format_type_t`. -/
inductive format_type_t where
  | FORMAT_FULL
  | FORMAT_QUICK
  | FORMAT_WIPE
deriving DecidableEq

/-- One stderr message: a constructor per distinct `_fs_error` / `_fs_debugN`
format string of the embedded functions, carrying the formatted arguments. -/
inductive Msg where
  | preparingWrite (n : Nat)
  | preparingAppend (n : Nat)
  | preparingRead (n : Nat)
  | filenameTruncated (n : Nat)
  | fileReady
  | fileNotFound (n : Nat)
  | finalising (n : Nat)
  | appendingBlocks (b l : Int)
  | markingEnd (n : Nat)
  | finalised (n : Nat)
  | writingBytes (size n : Nat)
  | truncatedTo (bytes : Nat)
  | noSpace (n : Nat)
  | fileWritten (n : Nat)
  | readOnlyHandle (n : Nat)
  | dataByte (i v : Nat)
  | nullHandle
  | readingBlock (b : Int)
  | bufByte (i v : Nat)
  | deleting (n : Nat)
  | deleted (n : Nat)
  | searchingChain
  | checkingBlock (b : Int)
  | lastIs (b : Int)
  | notAChain (b : Int)
  | overwritingBlock (b : Int)
  | nextFreeIs (b : Int)
  | invalidWrite (b : Int)
  | linking (n : Nat) (b : Int)
  | linkSuccess
  | cannotLink (n : Nat) (b : Int)
  | unlinking (b : Int)
  | unlinkSuccess
  | cannotUnlink (b : Int)
  | relinkingBlocks (b t : Int)
  | relinkInvalidTarget (t : Int)
  | relinkInvalidBlock (b : Int)
  | formatting
  | writingTable
  | writingMeta
  | formatted
  | doneMark
deriving DecidableEq

/-- The filesystem state: the EEPROM block region (by LBA), the RAM
allocation-table cache, the persisted allocation table, the persisted
metadata header, the `__debug` level and the stderr sink (newest first). -/
structure FS where
  blocks : Nat → block_t
  alloc_table : Nat → file_alloc_t
  e_alloc : Nat → file_alloc_t
  e_meta : fs_meta_t
  debug : Nat
  log : List Msg

/-- `_fs_error`: always emitted. -/
def fsError (s : FS) (m : Msg) : FS :=
  { s with log := m :: s.log }

/-- `_fs_debugN`: emitted when `__debug >= N`. -/
def fsDebug (n : Nat) (s : FS) (m : Msg) : FS :=
  if s.debug ≥ n then { s with log := m :: s.log } else s

/-- `set_debug`. -/
def set_debug (s : FS) (level : Nat) : FS :=
  { s with debug := level }

/-- The cached `*next_free_block`, i.e. `alloc_table[EEPROM_FS_MAX_FILES].data_block`. -/
def FS.next_free (s : FS) : Int :=
  (s.alloc_table EEPROM_FS_MAX_FILES).data_block

/-- Read the block behind `get_block_pointer(b)`.  Out-of-range addresses
wrap around the medium in the C; they are modelled as a zero block and are
never dereferenced in the developments below. -/
def getBlock (s : FS) (b : Int) : block_t :=
  if 0 ≤ b ∧ b < (EEPROM_FS_NUM_BLOCKS : Int) then s.blocks b.toNat
  else { next_block := NULL_PTR, data := List.replicate EEPROM_FS_BLOCK_DATA_SIZE 0 }

/-- Overwrite a whole block (used by the FORMAT_FULL path). -/
def setWholeBlock (s : FS) (b : Nat) (blk : block_t) : FS :=
  { s with blocks := fun x => if x = b then blk else s.blocks x }

/-- Write only the payload region of block `b` (the 2-byte `next` field is
left untouched), as `write_block_data` does. -/
def setBlockData (s : FS) (b : Nat) (d : List Nat) : FS :=
  { s with blocks := fun x =>
      if x = b then { next_block := (s.blocks b).next_block, data := d } else s.blocks x }

/-- The 2-byte store of a `next` field through `get_block_pointer` for an
out-of-range block number `b`: the C computes
`DATA_OFFSET + (b * BLOCK_SIZE) % SIZE` with truncated modulo and writes
`sizeof(lba_t)` bytes there.  Positive wraps land on another block's
`next` field (the offset stays 32-aligned); negative wraps reach the
persisted allocation table at the entry-aligned addresses 98, 66, 34
(entries 22, 14, 6; the two bytes replace the `filesize` field,
reinterpreting the stored `lba_t` as a uint16) or the metadata header at
address 2 (its second field, `start_address`); every other address is
past one of the ends of the 2048-byte image, outside the bytes the
filesystem state represents. -/
def setBlockNextWrapped (s : FS) (b : Int) (t : Int) : FS :=
  let addr : Int := (EEPROM_FS_DATA_OFFSET : Int) +
    (b * (EEPROM_FS_BLOCK_SIZE : Int)).tmod (EEPROM_FS_SIZE : Int)
  if (EEPROM_FS_DATA_OFFSET : Int) ≤ addr ∧
      addr < (EEPROM_FS_DATA_OFFSET : Int) +
        (EEPROM_FS_NUM_BLOCKS : Int) * (EEPROM_FS_BLOCK_SIZE : Int) then
    { s with blocks := fun x =>
        if (x : Int) = (addr - (EEPROM_FS_DATA_OFFSET : Int)) / (EEPROM_FS_BLOCK_SIZE : Int)
        then { next_block := t, data := (s.blocks x).data } else s.blocks x }
  else if (EEPROM_FS_ALLOC_TABLE_OFFSET : Int) ≤ addr ∧
      addr < (EEPROM_FS_DATA_OFFSET : Int) then
    { s with e_alloc := fun x =>
        if (x : Int) = (addr - (EEPROM_FS_ALLOC_TABLE_OFFSET : Int)) / (sizeof_file_alloc_t : Int)
        then { filesize := (t % 65536).toNat, data_block := (s.e_alloc x).data_block }
        else s.e_alloc x }
  else if 0 ≤ addr ∧ addr < (EEPROM_FS_ALLOC_TABLE_OFFSET : Int) then
    { s with e_meta := { s.e_meta with start_address := (t % 65536).toNat } }
  else s

/-- Write only the `next` field of block `b`, as `relink` and `unlink` do.
In range this is block `b`'s first two bytes; out of range the address
wraps into other regions of the image (see `setBlockNextWrapped`). -/
def setBlockNext (s : FS) (b : Int) (t : Int) : FS :=
  if 0 ≤ b ∧ b < (EEPROM_FS_NUM_BLOCKS : Int) then
    { s with blocks := fun x =>
        if x = b.toNat then { next_block := t, data := (s.blocks x).data } else s.blocks x }
  else setBlockNextWrapped s b t

/-- Update one RAM allocation-table entry. -/
def setAlloc (s : FS) (i : Nat) (e : file_alloc_t) : FS :=
  { s with alloc_table := fun x => if x = i then e else s.alloc_table x }

/-- Update one persisted allocation-table entry (an `eeprom_update_block`
of a single `file_alloc_t`). -/
def setEAlloc (s : FS) (i : Nat) (e : file_alloc_t) : FS :=
  { s with e_alloc := fun x => if x = i then e else s.e_alloc x }

/-- Advance the cached `*next_free_block` (a store through the RAM table). -/
def setNextFree (s : FS) (t : Int) : FS :=
  setAlloc s EEPROM_FS_MAX_FILES
    { filesize := (s.alloc_table EEPROM_FS_MAX_FILES).filesize, data_block := t }

/-- Loop body of `last_block_in_chain`: follow `next` pointers until the
null sentinel.  `fuel` exceeds the block count in every state considered. -/
def lastChainLoop : Nat → FS → Int → FS × Int
  | 0, s, b => (s, b)
  | fuel + 1, s, b =>
    let s := fsDebug 4 s (Msg.checkingBlock b)
    let blk := getBlock s b
    if blk.next_block ≠ NULL_PTR then lastChainLoop fuel s blk.next_block else (s, b)

/-- `last_block_in_chain`. -/
def last_block_in_chain (s : FS) (block : Int) : FS × Int :=
  if 0 ≤ block ∧ block < (EEPROM_FS_NUM_BLOCKS : Int) then
    let s := fsDebug 3 s Msg.searchingChain
    let p := lastChainLoop (EEPROM_FS_NUM_BLOCKS + 1) s block
    let s := fsDebug 3 p.1 (Msg.lastIs p.2)
    (s, p.2)
  else (fsError s (Msg.notAChain block), NULL_PTR)

/-- `write_block_data`: pull the head of the free chain, advance the cached
head to that block's stored `next`, write the payload only. -/
def write_block_data (s : FS) (d : List Nat) : FS × Int :=
  let write_to := s.next_free
  if 0 ≤ write_to ∧ write_to < (EEPROM_FS_NUM_BLOCKS : Int) then
    let blk := getBlock s write_to
    let s := setNextFree s blk.next_block
    let s := fsDebug 2 s (Msg.overwritingBlock write_to)
    let s := setBlockData s write_to.toNat d
    let s := fsDebug 2 s Msg.doneMark
    let s := fsDebug 3 s (Msg.nextFreeIs s.next_free)
    (s, write_to)
  else (fsError s (Msg.invalidWrite write_to), NULL_PTR)

/-- `link`: commit a handle to the allocation table (entry plus free-chain
sentinel mirrored to storage). -/
def link (s : FS) (fh : file_handle_t) : FS :=
  if 0 ≤ fh.first_block ∧ fh.first_block < (EEPROM_FS_NUM_BLOCKS : Int) then
    let s := fsDebug 1 s (Msg.linking fh.filename fh.first_block)
    let filename := fh.filename % EEPROM_FS_MAX_FILES
    let s := setAlloc s filename { filesize := fh.filesize, data_block := fh.first_block }
    let s := setEAlloc s filename (s.alloc_table filename)
    let s := setEAlloc s EEPROM_FS_MAX_FILES (s.alloc_table EEPROM_FS_MAX_FILES)
    fsDebug 1 s Msg.linkSuccess
  else fsError s (Msg.cannotLink fh.filename fh.first_block)

/-- `unlink`: append a chain to the tail of the free chain (only the tail
block's `next` field is rewritten). -/
def unlink (s : FS) (block : Int) : FS :=
  if 0 ≤ block ∧ block < (EEPROM_FS_NUM_BLOCKS : Int) then
    let s := fsDebug 1 s (Msg.unlinking block)
    let p := last_block_in_chain s s.next_free
    let s := setBlockNext p.1 p.2 block
    fsDebug 1 s Msg.unlinkSuccess
  else fsError s (Msg.cannotUnlink block)

/-- `relink`: overwrite the `next` field of a block, range-checking both
the block and the target (the target may be the null sentinel). -/
def relink (s : FS) (block target : Int) : FS :=
  if 0 ≤ block ∧ block < (EEPROM_FS_NUM_BLOCKS : Int) then
    if NULL_PTR ≤ target ∧ target < (EEPROM_FS_NUM_BLOCKS : Int) then
      let s := fsDebug 3 s (Msg.relinkingBlocks block target)
      let s := setBlockNext s block target
      fsDebug 3 s Msg.doneMark
    else fsError s (Msg.relinkInvalidTarget target)
  else fsError s (Msg.relinkInvalidBlock block)

/-- `open_for_write`: fold names strictly above MAX_FILES, return a fresh
WRITE handle.  No state mutation besides logging. -/
def open_for_write (s : FS) (filename : Nat) : FS × file_handle_t :=
  let s := fsDebug 1 s (Msg.preparingWrite filename)
  let p := if filename > EEPROM_FS_MAX_FILES then
      (fsDebug 2 s (Msg.filenameTruncated (filename % EEPROM_FS_MAX_FILES)),
       filename % EEPROM_FS_MAX_FILES)
    else (s, filename)
  let fh : file_handle_t :=
    { filename := p.2, filesize := 0, type := handle_type.FH_WRITE,
      first_block := NULL_PTR, last_block := NULL_PTR }
  (fsDebug 1 p.1 Msg.fileReady, fh)

/-- `open_for_append`. -/
def open_for_append (s : FS) (filename : Nat) : FS × file_handle_t :=
  let s := fsDebug 1 s (Msg.preparingAppend filename)
  let p := if filename > EEPROM_FS_MAX_FILES then
      (fsDebug 2 s (Msg.filenameTruncated (filename % EEPROM_FS_MAX_FILES)),
       filename % EEPROM_FS_MAX_FILES)
    else (s, filename)
  let fh : file_handle_t :=
    { filename := p.2, filesize := (p.1.alloc_table p.2).filesize,
      type := handle_type.FH_APPEND, first_block := NULL_PTR, last_block := NULL_PTR }
  (fsDebug 1 p.1 Msg.fileReady, fh)

/-- `open_for_read`. -/
def open_for_read (s : FS) (filename : Nat) : FS × file_handle_t :=
  let s := fsDebug 1 s (Msg.preparingRead filename)
  let p := if filename > EEPROM_FS_MAX_FILES then
      (fsDebug 2 s (Msg.filenameTruncated (filename % EEPROM_FS_MAX_FILES)),
       filename % EEPROM_FS_MAX_FILES)
    else (s, filename)
  let fh : file_handle_t :=
    { filename := p.2, filesize := (p.1.alloc_table p.2).filesize,
      type := handle_type.FH_READ, first_block := (p.1.alloc_table p.2).data_block,
      last_block := NULL_PTR }
  if fh.first_block = NULL_PTR then (fsError p.1 (Msg.fileNotFound p.2), fh)
  else (fsDebug 1 p.1 Msg.fileReady, fh)

/-- Point update of a read buffer. -/
def updBuf (buf : Nat → Nat) (k v : Nat) : Nat → Nat :=
  fun x => if x = k then v else buf x

/-- Buffer effect of `read`'s per-block copy loop
(`buf[i*BLOCK_DATA_SIZE+j] = block.data[j]` for `j < nb`). -/
def copyBufFun (buf : Nat → Nat) (d : List Nat) (base nb : Nat) : Nat → Nat :=
  (List.range nb).foldl (fun b j => updBuf b (base + j) (d.getD j 0)) buf

/-- Log effect of `read`'s per-block copy loop (one `_fs_debug4` per byte). -/
def copyBufLog (s : FS) (d : List Nat) (base nb : Nat) : FS :=
  (List.range nb).foldl (fun t j => fsDebug 4 t (Msg.bufByte (base + j) (d.getD j 0))) s

/-- The do-while loop of `read`: read a block, copy `num_bytes` payload
bytes (shrunk to `filesize % BLOCK_DATA_SIZE` past the file end), continue
while the stored `next` is not the null sentinel. -/
def readLoop : Nat → FS → Int → Nat → Nat → Nat → (Nat → Nat) → FS × (Nat → Nat)
  | 0, s, _, _, _, _, buf => (s, buf)
  | fuel + 1, s, cur, i, num_bytes, filesize, buf =>
    let s := fsDebug 3 s (Msg.readingBlock cur)
    let blk := getBlock s cur
    let s := fsDebug 3 s Msg.doneMark
    let nb := if (i + 1) * EEPROM_FS_BLOCK_DATA_SIZE > filesize then
        filesize % EEPROM_FS_BLOCK_DATA_SIZE else num_bytes
    let s := copyBufLog s blk.data (i * EEPROM_FS_BLOCK_DATA_SIZE) nb
    let buf := copyBufFun buf blk.data (i * EEPROM_FS_BLOCK_DATA_SIZE) nb
    if blk.next_block ≠ NULL_PTR then readLoop fuel s blk.next_block (i + 1) nb filesize buf
    else (s, buf)

/-- `read`: walk the chain from the handle's first block into the buffer. -/
def read (s : FS) (fh : file_handle_t) (buf : Nat → Nat) : FS × (Nat → Nat) :=
  if 0 ≤ fh.first_block ∧ fh.first_block < (EEPROM_FS_NUM_BLOCKS : Int) then
    readLoop (EEPROM_FS_NUM_BLOCKS + 1) s fh.first_block 0 EEPROM_FS_BLOCK_DATA_SIZE
      fh.filesize buf
  else (fsError s Msg.nullHandle, buf)

/-- List effect of `write`'s per-block copy loop
(`block.data[j] = data[i*BLOCK_DATA_SIZE+j]` for `j < nb`, other bytes of
the local block buffer keep their previous value, as in the C). -/
def copyLocalList (l d : List Nat) (base nb : Nat) : List Nat :=
  (List.range nb).foldl (fun acc j => acc.set j (d.getD (base + j) 0)) l

/-- Log effect of `write`'s per-block copy loop (one `_fs_debug4` per byte). -/
def copyLocalLog (s : FS) (d : List Nat) (base nb : Nat) : FS :=
  (List.range nb).foldl (fun t j => fsDebug 4 t (Msg.dataByte (base + j) (d.getD (base + j) 0))) s

/-- The block-splitting loop of `write`: run `n` more iterations starting
at block index `i`, carrying the local block buffer (whose bytes past the
copied region are stale, exactly as the C stack variable). -/
def writeLoop : Nat → FS → file_handle_t → List Nat → List Nat → Nat → Nat → Nat →
    FS × file_handle_t × List Nat
  | 0, s, fh, _, local_data, _, _, _ => (s, fh, local_data)
  | n + 1, s, fh, data, local_data, i, num_bytes, size =>
    let nb := if (i + 1) * EEPROM_FS_BLOCK_DATA_SIZE > size then
        size % EEPROM_FS_BLOCK_DATA_SIZE else num_bytes
    let s := copyLocalLog s data (i * EEPROM_FS_BLOCK_DATA_SIZE) nb
    let local_data := copyLocalList local_data data (i * EEPROM_FS_BLOCK_DATA_SIZE) nb
    let p := write_block_data s local_data
    let fh := { fh with last_block := p.2 }
    writeLoop n p.1 fh data local_data (i + 1) nb size

/-- The APPEND tail-merge step at the top of `write`: when the handle's
current size has a non-aligned tail, read the trailing
`overflow = filesize % BLOCK_DATA_SIZE` bytes out of the existing last
block and prepend them to the data, adjusting the size. -/
def write_merge (s : FS) (fh : file_handle_t) (data : List Nat) (size : Nat) :
    FS × List Nat × Nat :=
  if fh.type = handle_type.FH_APPEND ∧ fh.filesize % EEPROM_FS_BLOCK_DATA_SIZE > 0 then
    let overflow := fh.filesize % EEPROM_FS_BLOCK_DATA_SIZE
    let q := last_block_in_chain s (s.alloc_table fh.filename).data_block
    let last_block_fh := { fh with first_block := q.2, filesize := overflow }
    let r := read q.1 last_block_fh (fun _ => 0)
    (r.1, (List.range overflow).map r.2 ++ data, overflow + size)
  else (s, data, size)

/-- The capacity check of `write`: `blocks_in_use` comes from the
allocation table's current entry; on overflow the block count is
truncated (the size_t wrap of `MAX_BLOCKS_PER_FILE - blocks_in_use` is
made explicit) with a logged error, otherwise `size / BLOCK_DATA_SIZE + 1`
blocks are used. -/
def write_capacity (s : FS) (fh : file_handle_t) (size : Nat) : FS × Nat :=
  let blocks_in_use := (s.alloc_table fh.filename).filesize / EEPROM_FS_BLOCK_DATA_SIZE
  if blocks_in_use + size / EEPROM_FS_BLOCK_DATA_SIZE > EEPROM_FS_MAX_BLOCKS_PER_FILE then
    let num_blocks := (EEPROM_FS_MAX_BLOCKS_PER_FILE + 65536 - blocks_in_use) % 65536
    (fsError s (Msg.truncatedTo (num_blocks * EEPROM_FS_BLOCK_DATA_SIZE)), num_blocks)
  else (s, size / EEPROM_FS_BLOCK_DATA_SIZE + 1)

/-- `write`: APPEND tail merge, capacity check, then the block loop and
the committed-size computation.  The uninitialised local block buffer of
the C is modelled as zeros; its stale bytes are never observed. -/
def write (s : FS) (fh : file_handle_t) (data : List Nat) (size : Nat) :
    FS × file_handle_t :=
  if fh.type = handle_type.FH_WRITE ∨ fh.type = handle_type.FH_APPEND then
    let m := write_merge s fh data size
    let s1 := fsDebug 1 m.1 (Msg.writingBytes m.2.2 fh.filename)
    let t := write_capacity s1 fh m.2.2
    if t.2 > 0 then
      let fh1 := { fh with first_block := t.1.next_free }
      let w := writeLoop t.2 t.1 fh1 m.2.1
        (List.replicate EEPROM_FS_BLOCK_DATA_SIZE 0) 0 EEPROM_FS_BLOCK_DATA_SIZE m.2.2
      let fh2 := { w.2.1 with filesize :=
        if m.2.2 > t.2 * EEPROM_FS_BLOCK_DATA_SIZE then
          t.2 * EEPROM_FS_BLOCK_DATA_SIZE else m.2.2 }
      (fsDebug 1 w.1 (Msg.fileWritten fh2.filename), fh2)
    else (fsError t.1 (Msg.noSpace fh.filename), fh)
  else (fsError s (Msg.readOnlyHandle fh.filename), fh)

/-- The commit step of `close`: sum the APPEND filesize into the handle,
relink the old chain's last block to the new run when the existing file
exceeds one data block, otherwise unlink the old chain (when non-empty)
and link the new one. -/
def close_commit (s : FS) (fh : file_handle_t) : FS × file_handle_t :=
  if fh.type = handle_type.FH_APPEND then
    let fh := { fh with filesize := fh.filesize + (s.alloc_table fh.filename).filesize }
    if (s.alloc_table fh.filename).filesize > EEPROM_FS_BLOCK_DATA_SIZE then
      let q := last_block_in_chain s (s.alloc_table fh.filename).data_block
      let s := fsDebug 2 q.1 (Msg.appendingBlocks fh.first_block q.2)
      let s := relink s q.2 fh.first_block
      (fsDebug 2 s Msg.doneMark, fh)
    else
      let s := if (s.alloc_table fh.filename).filesize > 0 then
          unlink s (s.alloc_table fh.filename).data_block else s
      (link s fh, fh)
  else (link s fh, fh)

/-- `close`: the commit step above, then mark end of file. -/
def close (s : FS) (fh : file_handle_t) : FS :=
  let s := fsDebug 1 s (Msg.finalising fh.filename)
  let p := close_commit s fh
  let s := fsDebug 2 p.1 (Msg.markingEnd p.2.filename)
  let s := relink s p.2.last_block NULL_PTR
  fsDebug 1 s (Msg.finalised p.2.filename)

/-- `delete`: fold the name (the conditional fold followed by the
unconditional one, as in the C), unlink the chain, null the entry and
mirror that single entry to storage. -/
def delete (s : FS) (filename : Nat) : FS :=
  let s := fsDebug 1 s (Msg.deleting filename)
  let p := if filename > EEPROM_FS_MAX_FILES then
      (fsDebug 2 s (Msg.filenameTruncated (filename % EEPROM_FS_MAX_FILES)),
       filename % EEPROM_FS_MAX_FILES)
    else (s, filename)
  let filename := p.2 % EEPROM_FS_MAX_FILES
  let s := unlink p.1 (p.1.alloc_table filename).data_block
  let s := setAlloc s filename { filesize := 0, data_block := NULL_PTR }
  let s := setEAlloc s filename (s.alloc_table filename)
  fsDebug 1 s (Msg.deleted filename)

/-- `wipe_eeprom`: zero the whole medium (all-zero bytes decode to zeroed
records at the logical level). -/
def wipe_eeprom (s : FS) : FS :=
  { s with
    blocks := fun _ => { next_block := 0, data := List.replicate EEPROM_FS_BLOCK_DATA_SIZE 0 },
    e_alloc := fun _ => { filesize := 0, data_block := 0 },
    e_meta := { block_size := 0, start_address := 0, fs_size := 0,
                max_files := 0, max_blocks_per_file := 0 } }

/-- One iteration of the block loop of `format_eepromfs`: FULL overwrites
the whole block (zero payload), QUICK relinks the address only. -/
def format_step (f : format_type_t) (s : FS) (i : Nat) : FS :=
  if f = format_type_t.FORMAT_FULL then
    let s := fsDebug 3 s (Msg.relinkingBlocks (i : Int) ((i : Int) - 1))
    let s := setWholeBlock s i
      { next_block := (i : Int) - 1, data := List.replicate EEPROM_FS_BLOCK_DATA_SIZE 0 }
    fsDebug 3 s Msg.doneMark
  else relink s (i : Int) ((i : Int) - 1)

/-- The metadata record written at format time. -/
def this_meta : fs_meta_t :=
  { block_size := EEPROM_FS_BLOCK_SIZE, start_address := 0, fs_size := EEPROM_FS_SIZE,
    max_files := EEPROM_FS_MAX_FILES, max_blocks_per_file := EEPROM_FS_MAX_BLOCKS_PER_FILE }

/-- The allocation-table reset of `format_eepromfs`: all file entries
nulled, the sentinel pointed at the last block, then the whole table
(`sizeof(alloc_table)`, i.e. all MAX_FILES + 1 entries) mirrored. -/
def format_reset_tables (s : FS) : FS :=
  let s := { s with alloc_table := fun i =>
      if i = EEPROM_FS_MAX_FILES then
        { filesize := 0, data_block := (EEPROM_FS_NUM_BLOCKS : Int) - 1 }
      else if i < EEPROM_FS_MAX_FILES then { filesize := 0, data_block := NULL_PTR }
      else s.alloc_table i }
  { s with e_alloc := fun i =>
      if i ≤ EEPROM_FS_MAX_FILES then s.alloc_table i else s.e_alloc i }

/-- `format_eepromfs`: wipe when requested, thread the free chain in
reverse order through every block, reset the allocation table (null file
entries, sentinel at NUM_BLOCKS - 1), persist the whole table, persist the
metadata header. -/
def format_eepromfs (s : FS) (f : format_type_t) : FS :=
  let s := fsDebug 1 s Msg.formatting
  let s := if f = format_type_t.FORMAT_WIPE then wipe_eeprom s else s
  let s := (List.range EEPROM_FS_NUM_BLOCKS).foldl (format_step f) s
  let s := fsDebug 2 s Msg.writingTable
  let s := format_reset_tables s
  let s := fsDebug 2 s Msg.doneMark
  let s := fsDebug 2 s Msg.writingMeta
  let s := { s with e_meta := this_meta }
  let s := fsDebug 2 s Msg.doneMark
  fsDebug 1 s Msg.formatted

/-- Observation helper: length of the chain starting at a block, following
stored `next` pointers until the null sentinel (with fuel). -/
def chainLen : Nat → FS → Int → Nat
  | 0, _, _ => 0
  | fuel + 1, s, b =>
    if 0 ≤ b ∧ b < (EEPROM_FS_NUM_BLOCKS : Int) then
      if (getBlock s b).next_block = NULL_PTR then 1 else 1 + chainLen fuel s (getBlock s b).next_block
    else 0

/-- Observation helper: the first `n` bytes of a read buffer as a list. -/
def bufList (buf : Nat → Nat) (n : Nat) : List Nat :=
  (List.range n).map buf

/-- A blank pre-format state (debug level 0, empty log). -/
def init_state : FS :=
  { blocks := fun _ => { next_block := NULL_PTR, data := List.replicate EEPROM_FS_BLOCK_DATA_SIZE 0 },
    alloc_table := fun _ => { filesize := 0, data_block := NULL_PTR },
    e_alloc := fun _ => { filesize := 0, data_block := NULL_PTR },
    e_meta := { block_size := 0, start_address := 0, fs_size := 0,
                max_files := 0, max_blocks_per_file := 0 },
    debug := 0, log := [] }

/-- A freshly (fully) formatted filesystem. -/
def fs0 : FS := format_eepromfs init_state format_type_t.FORMAT_FULL

set_option maxRecDepth 100000

/-- Driver state for the round-trip counterexample: a 31-byte file is
committed under name 6 and then a fresh WRITE handle writes a 240-byte
payload to the same name.  The capacity check of `write` reads
`alloc_table[6].filesize = 31`, so `blocks_in_use = 1` although the handle
is a fresh WRITE handle, and the 240-byte payload is truncated to 7 blocks. -/
def c1CexState : FS :=
  let p1 := open_for_write fs0 6
  let p2 := write p1.1 p1.2 (List.replicate 31 65) 31
  let s := close p2.1 p2.2
  let p3 := open_for_write s 6
  let p4 := write p3.1 p3.2 (List.replicate 240 66) 240
  close p4.1 p4.2

/-- Driver state for the append bug: a 13-byte file, then an APPEND of 112
bytes (scenario S3 of the spec, which expects a committed size of 125). -/
def c2State : FS :=
  let p1 := open_for_write fs0 7
  let p2 := write p1.1 p1.2 (List.replicate 13 76) 13
  let s := close p2.1 p2.2
  let p3 := open_for_append s 7
  let p4 := write p3.1 p3.2 (List.replicate 112 77) 112
  close p4.1 p4.2

/-- Driver state for the big-append bug: a 35-byte file (more than one
data block, non-aligned tail), then an APPEND of 10 bytes. -/
def c3State : FS :=
  let p1 := open_for_write fs0 8
  let p2 := write p1.1 p1.2 (List.replicate 35 88) 35
  let s := close p2.1 p2.2
  let p3 := open_for_append s 8
  let p4 := write p3.1 p3.2 (List.replicate 10 89) 10
  close p4.1 p4.2

/-- Driver state for the capacity-check bug: a fresh name receives a
250-byte write (scenario S5 of the spec, which expects Truncated and a
committed size of 240). -/
def c4State : FS :=
  let p1 := open_for_write fs0 6
  let p2 := write p1.1 p1.2 (List.replicate 250 65) 250
  close p2.1 p2.2

/-- Driver state for the size-to-length counterexample: a fresh 30-byte
write, whose size is an exact multiple of BLOCK_DATA_SIZE. -/
def c6State : FS :=
  let p1 := open_for_write fs0 7
  let p2 := write p1.1 p1.2 (List.replicate 30 66) 30
  close p2.1 p2.2

/-- The committed state after writing payload `p` under `name` on a fresh
filesystem: `open_for_write`, one `write` of all of `p`, `close`. -/
def rtWritten (name : Nat) (p : List Nat) : FS :=
  let p1 := open_for_write fs0 name
  let p2 := write p1.1 p1.2 p p.length
  close p2.1 p2.2

/-- Re-opening the committed file for reading. -/
def rtRead (name : Nat) (p : List Nat) : FS × file_handle_t :=
  open_for_read (rtWritten name p) name

/-- The buffer produced by `read` on the re-opened file (initially all
zeros). -/
def rtBuf (name : Nat) (p : List Nat) : Nat → Nat :=
  (read (rtRead name p).1 (rtRead name p).2 (fun _ => 0)).2

/-- A reachable free-chain-exhausted state: seven committed files fill
all 59 blocks (six 240-byte files of 9 blocks each, then a 125-byte file
of 5 blocks ending at block 0), so the cached free head is the stored
`next` of block 0, the null sentinel. -/
def c7CexState : FS :=
  let w := fun (s : FS) (n : Nat) (sz : Nat) =>
    let p1 := open_for_write s n
    let p2 := write p1.1 p1.2 (List.replicate sz 65) sz
    close p2.1 p2.2
  w (w (w (w (w (w (w fs0 0 240) 1 240) 2 240) 3 240) 4 240) 5 240) 6 125

/-
Projection lemmas: the logging primitives change only the log, the
storage primitives change exactly one component.
-/

@[simp] lemma fsError_blocks (s : FS) (m : Msg) : (fsError s m).blocks = s.blocks := rfl

@[simp] lemma fsError_alloc (s : FS) (m : Msg) : (fsError s m).alloc_table = s.alloc_table := rfl

@[simp] lemma fsError_e_alloc (s : FS) (m : Msg) : (fsError s m).e_alloc = s.e_alloc := rfl

@[simp] lemma fsError_e_meta (s : FS) (m : Msg) : (fsError s m).e_meta = s.e_meta := rfl

@[simp] lemma fsError_debug (s : FS) (m : Msg) : (fsError s m).debug = s.debug := rfl

@[simp] lemma fsError_log (s : FS) (m : Msg) : (fsError s m).log = m :: s.log := rfl

@[simp] lemma fsDebug_blocks (n : Nat) (s : FS) (m : Msg) : (fsDebug n s m).blocks = s.blocks := by
  unfold fsDebug; split <;> rfl

@[simp] lemma fsDebug_alloc (n : Nat) (s : FS) (m : Msg) :
    (fsDebug n s m).alloc_table = s.alloc_table := by
  unfold fsDebug; split <;> rfl

@[simp] lemma fsDebug_e_alloc (n : Nat) (s : FS) (m : Msg) :
    (fsDebug n s m).e_alloc = s.e_alloc := by
  unfold fsDebug; split <;> rfl

@[simp] lemma fsDebug_e_meta (n : Nat) (s : FS) (m : Msg) : (fsDebug n s m).e_meta = s.e_meta := by
  unfold fsDebug; split <;> rfl

@[simp] lemma fsDebug_debug (n : Nat) (s : FS) (m : Msg) : (fsDebug n s m).debug = s.debug := by
  unfold fsDebug; split <;> rfl

lemma fsDebug_log_mem (n : Nat) (s : FS) (m m' : Msg) (h : m ∈ s.log) :
    m ∈ (fsDebug n s m').log := by
  unfold fsDebug; split
  · exact List.mem_cons_of_mem _ h
  · exact h

@[simp] lemma set_debug_blocks (s : FS) (l : Nat) : (set_debug s l).blocks = s.blocks := rfl

@[simp] lemma set_debug_alloc (s : FS) (l : Nat) :
    (set_debug s l).alloc_table = s.alloc_table := rfl

@[simp] lemma set_debug_e_alloc (s : FS) (l : Nat) : (set_debug s l).e_alloc = s.e_alloc := rfl

@[simp] lemma set_debug_e_meta (s : FS) (l : Nat) : (set_debug s l).e_meta = s.e_meta := rfl

@[simp] lemma setWholeBlock_alloc (s : FS) (b : Nat) (blk : block_t) :
    (setWholeBlock s b blk).alloc_table = s.alloc_table := rfl

@[simp] lemma setWholeBlock_e_alloc (s : FS) (b : Nat) (blk : block_t) :
    (setWholeBlock s b blk).e_alloc = s.e_alloc := rfl

@[simp] lemma setWholeBlock_e_meta (s : FS) (b : Nat) (blk : block_t) :
    (setWholeBlock s b blk).e_meta = s.e_meta := rfl

@[simp] lemma setWholeBlock_log (s : FS) (b : Nat) (blk : block_t) :
    (setWholeBlock s b blk).log = s.log := rfl

@[simp] lemma setWholeBlock_debug (s : FS) (b : Nat) (blk : block_t) :
    (setWholeBlock s b blk).debug = s.debug := rfl

lemma setWholeBlock_blocks (s : FS) (b : Nat) (blk : block_t) (x : Nat) :
    (setWholeBlock s b blk).blocks x = if x = b then blk else s.blocks x := rfl

@[simp] lemma setBlockData_alloc (s : FS) (b : Nat) (d : List Nat) :
    (setBlockData s b d).alloc_table = s.alloc_table := rfl

@[simp] lemma setBlockData_e_alloc (s : FS) (b : Nat) (d : List Nat) :
    (setBlockData s b d).e_alloc = s.e_alloc := rfl

@[simp] lemma setBlockData_e_meta (s : FS) (b : Nat) (d : List Nat) :
    (setBlockData s b d).e_meta = s.e_meta := rfl

@[simp] lemma setBlockData_log (s : FS) (b : Nat) (d : List Nat) :
    (setBlockData s b d).log = s.log := rfl

@[simp] lemma setBlockData_debug (s : FS) (b : Nat) (d : List Nat) :
    (setBlockData s b d).debug = s.debug := rfl

lemma setBlockData_blocks (s : FS) (b : Nat) (d : List Nat) (x : Nat) :
    (setBlockData s b d).blocks x =
      if x = b then { next_block := (s.blocks b).next_block, data := d } else s.blocks x := rfl

@[simp] lemma setBlockNext_alloc (s : FS) (b t : Int) :
    (setBlockNext s b t).alloc_table = s.alloc_table := by
  unfold setBlockNext setBlockNextWrapped
  dsimp only
  repeat' split
  all_goals rfl

@[simp] lemma setBlockNext_log (s : FS) (b t : Int) : (setBlockNext s b t).log = s.log := by
  unfold setBlockNext setBlockNextWrapped
  dsimp only
  repeat' split
  all_goals rfl

@[simp] lemma setBlockNext_debug (s : FS) (b t : Int) : (setBlockNext s b t).debug = s.debug := by
  unfold setBlockNext setBlockNextWrapped
  dsimp only
  repeat' split
  all_goals rfl

lemma setBlockNext_e_alloc_in (s : FS) (b t : Int)
    (hb : 0 ≤ b ∧ b < (EEPROM_FS_NUM_BLOCKS : Int)) :
    (setBlockNext s b t).e_alloc = s.e_alloc := by
  unfold setBlockNext; rw [if_pos hb]

lemma setBlockNext_e_meta_in (s : FS) (b t : Int)
    (hb : 0 ≤ b ∧ b < (EEPROM_FS_NUM_BLOCKS : Int)) :
    (setBlockNext s b t).e_meta = s.e_meta := by
  unfold setBlockNext; rw [if_pos hb]

@[simp] lemma setAlloc_blocks (s : FS) (i : Nat) (e : file_alloc_t) :
    (setAlloc s i e).blocks = s.blocks := rfl

@[simp] lemma setAlloc_e_alloc (s : FS) (i : Nat) (e : file_alloc_t) :
    (setAlloc s i e).e_alloc = s.e_alloc := rfl

@[simp] lemma setAlloc_e_meta (s : FS) (i : Nat) (e : file_alloc_t) :
    (setAlloc s i e).e_meta = s.e_meta := rfl

@[simp] lemma setAlloc_log (s : FS) (i : Nat) (e : file_alloc_t) :
    (setAlloc s i e).log = s.log := rfl

@[simp] lemma setAlloc_debug (s : FS) (i : Nat) (e : file_alloc_t) :
    (setAlloc s i e).debug = s.debug := rfl

lemma setAlloc_alloc (s : FS) (i : Nat) (e : file_alloc_t) (j : Nat) :
    (setAlloc s i e).alloc_table j = if j = i then e else s.alloc_table j := rfl

@[simp] lemma setEAlloc_blocks (s : FS) (i : Nat) (e : file_alloc_t) :
    (setEAlloc s i e).blocks = s.blocks := rfl

@[simp] lemma setEAlloc_alloc (s : FS) (i : Nat) (e : file_alloc_t) :
    (setEAlloc s i e).alloc_table = s.alloc_table := rfl

@[simp] lemma setEAlloc_e_meta (s : FS) (i : Nat) (e : file_alloc_t) :
    (setEAlloc s i e).e_meta = s.e_meta := rfl

@[simp] lemma setEAlloc_log (s : FS) (i : Nat) (e : file_alloc_t) :
    (setEAlloc s i e).log = s.log := rfl

@[simp] lemma setEAlloc_debug (s : FS) (i : Nat) (e : file_alloc_t) :
    (setEAlloc s i e).debug = s.debug := rfl

lemma setEAlloc_e_alloc (s : FS) (i : Nat) (e : file_alloc_t) (j : Nat) :
    (setEAlloc s i e).e_alloc j = if j = i then e else s.e_alloc j := rfl

lemma next_free_eq (s : FS) : s.next_free = (s.alloc_table EEPROM_FS_MAX_FILES).data_block := rfl

lemma getBlock_congr {s t : FS} (h : s.blocks = t.blocks) (b : Int) :
    getBlock s b = getBlock t b := by
  unfold getBlock; rw [h]

/-- Equality of all state components except the debug level and the log:
the observable filesystem contents. -/
def sameCore (s t : FS) : Prop :=
  s.blocks = t.blocks ∧ s.alloc_table = t.alloc_table ∧ s.e_alloc = t.e_alloc ∧
    s.e_meta = t.e_meta

lemma sameCore_refl (s : FS) : sameCore s s := ⟨rfl, rfl, rfl, rfl⟩

lemma sameCore_symm {s t : FS} (h : sameCore s t) : sameCore t s :=
  ⟨h.1.symm, h.2.1.symm, h.2.2.1.symm, h.2.2.2.symm⟩

lemma sameCore_trans {s t u : FS} (h : sameCore s t) (h' : sameCore t u) : sameCore s u :=
  ⟨h.1.trans h'.1, h.2.1.trans h'.2.1, h.2.2.1.trans h'.2.2.1, h.2.2.2.trans h'.2.2.2⟩

lemma fsDebug_sameCore (n : Nat) (s : FS) (m : Msg) : sameCore (fsDebug n s m) s := by
  refine ⟨?_, ?_, ?_, ?_⟩ <;> simp

lemma fsError_sameCore (s : FS) (m : Msg) : sameCore (fsError s m) s := by
  refine ⟨?_, ?_, ?_, ?_⟩ <;> simp

lemma lastChainLoop_sameCore : ∀ (fuel : Nat) (s : FS) (b : Int),
    sameCore (lastChainLoop fuel s b).1 s := by
  intro fuel
  induction fuel with
  | zero => intro s b; exact sameCore_refl s
  | succ n ih =>
    intro s b
    unfold lastChainLoop
    dsimp only
    split
    · exact sameCore_trans (ih _ _) (fsDebug_sameCore _ _ _)
    · exact fsDebug_sameCore _ _ _

lemma last_block_in_chain_sameCore (s : FS) (b : Int) :
    sameCore (last_block_in_chain s b).1 s := by
  unfold last_block_in_chain
  split
  · exact sameCore_trans (sameCore_trans (fsDebug_sameCore _ _ _)
      (lastChainLoop_sameCore _ _ _)) (fsDebug_sameCore _ _ _)
  · exact fsError_sameCore _ _

lemma unlink_alloc (s : FS) (b : Int) : (unlink s b).alloc_table = s.alloc_table := by
  unfold unlink
  split
  · simp only [fsDebug_alloc, setBlockNext_alloc]
    exact ((last_block_in_chain_sameCore _ _).2.1).trans (by simp)
  · simp

lemma unlink_null (s : FS) :
    unlink s NULL_PTR = fsError s (Msg.cannotUnlink NULL_PTR) := by
  unfold unlink
  rw [if_neg (by decide)]

lemma NUMB_eq : EEPROM_FS_NUM_BLOCKS = 59 := rfl

lemma NUMBI_eq : ((EEPROM_FS_NUM_BLOCKS : Nat) : Int) = 59 := rfl

lemma BDS_eq : EEPROM_FS_BLOCK_DATA_SIZE = 30 := rfl

lemma MAXF_eq : EEPROM_FS_MAX_FILES = 29 := rfl

lemma MAXB_eq : EEPROM_FS_MAX_BLOCKS_PER_FILE = 8 := rfl

lemma NP_eq : NULL_PTR = -1 := rfl

lemma wipe_eeprom_alloc (s : FS) : (wipe_eeprom s).alloc_table = s.alloc_table := rfl

lemma wipe_eeprom_log (s : FS) : (wipe_eeprom s).log = s.log := rfl

lemma relink_alloc (s : FS) (b t : Int) : (relink s b t).alloc_table = s.alloc_table := by
  unfold relink
  split
  · split <;> simp
  · simp

lemma relink_e_alloc (s : FS) (b t : Int) : (relink s b t).e_alloc = s.e_alloc := by
  unfold relink
  split
  · rename_i hb
    split
    · simp [setBlockNext_e_alloc_in _ _ _ hb]
    · simp
  · simp

lemma relink_e_meta (s : FS) (b t : Int) : (relink s b t).e_meta = s.e_meta := by
  unfold relink
  split
  · rename_i hb
    split
    · simp [setBlockNext_e_meta_in _ _ _ hb]
    · simp
  · simp

lemma relink_ok (s : FS) (b t : Int) (hb : 0 ≤ b ∧ b < (EEPROM_FS_NUM_BLOCKS : Int))
    (ht : NULL_PTR ≤ t ∧ t < (EEPROM_FS_NUM_BLOCKS : Int)) :
    relink s b t = fsDebug 3 (setBlockNext (fsDebug 3 s (Msg.relinkingBlocks b t)) b t)
      Msg.doneMark := by
  unfold relink
  rw [if_pos hb, if_pos ht]

lemma format_step_blocks (f : format_type_t) (s : FS) (i : Nat)
    (hi : i < EEPROM_FS_NUM_BLOCKS) (b : Nat) :
    (format_step f s i).blocks b =
      if b = i then
        { next_block := (i : Int) - 1,
          data := if f = format_type_t.FORMAT_FULL then
              List.replicate EEPROM_FS_BLOCK_DATA_SIZE 0
            else (s.blocks b).data }
      else s.blocks b := by
  unfold format_step
  split
  · rename_i hfull
    simp only [fsDebug_blocks, setWholeBlock_blocks, if_pos hfull]
  · rename_i hfull
    have hi' : i < 59 := by rw [NUMB_eq] at hi; exact hi
    have hguard : 0 ≤ (i : Int) ∧ (i : Int) < (EEPROM_FS_NUM_BLOCKS : Int) := by
      rw [NUMBI_eq]; omega
    have htgt : NULL_PTR ≤ (i : Int) - 1 ∧ (i : Int) - 1 < (EEPROM_FS_NUM_BLOCKS : Int) := by
      rw [NP_eq, NUMBI_eq]; omega
    rw [relink_ok _ _ _ hguard htgt]
    simp only [fsDebug_blocks]
    unfold setBlockNext
    rw [if_pos hguard]
    simp only [fsDebug_blocks, Int.toNat_natCast]

lemma format_step_alloc (f : format_type_t) (s : FS) (i : Nat) :
    (format_step f s i).alloc_table = s.alloc_table := by
  unfold format_step
  split
  · simp
  · rw [relink_alloc]

lemma format_step_e_alloc (f : format_type_t) (s : FS) (i : Nat) :
    (format_step f s i).e_alloc = s.e_alloc := by
  unfold format_step
  split
  · simp
  · rw [relink_e_alloc]

lemma format_step_e_meta (f : format_type_t) (s : FS) (i : Nat) :
    (format_step f s i).e_meta = s.e_meta := by
  unfold format_step
  split
  · simp
  · rw [relink_e_meta]

lemma format_fold_blocks (f : format_type_t) (s : FS) :
    ∀ n, n ≤ EEPROM_FS_NUM_BLOCKS → ∀ b : Nat,
      ((List.range n).foldl (format_step f) s).blocks b =
        if b < n then
          { next_block := (b : Int) - 1,
            data := if f = format_type_t.FORMAT_FULL then
                List.replicate EEPROM_FS_BLOCK_DATA_SIZE 0
              else (s.blocks b).data }
        else s.blocks b := by
  intro n
  induction n with
  | zero => simp
  | succ k ih =>
    intro hk b
    have hk' : k ≤ EEPROM_FS_NUM_BLOCKS := Nat.le_of_succ_le hk
    have hkN : k < EEPROM_FS_NUM_BLOCKS := hk
    rw [List.range_succ, List.foldl_append, List.foldl_cons, List.foldl_nil,
      format_step_blocks f _ k hkN b, ih hk' b]
    by_cases hbk : b = k
    · subst hbk
      rw [if_pos rfl, if_neg (lt_irrefl b), if_pos (Nat.lt_succ_self b)]
    · rw [if_neg hbk]
      by_cases hlt : b < k
      · rw [if_pos hlt, if_pos (Nat.lt_succ_of_lt hlt)]
      · rw [if_neg hlt, if_neg (by omega)]

lemma format_fold_alloc (f : format_type_t) (s : FS) (n : Nat) :
    ((List.range n).foldl (format_step f) s).alloc_table = s.alloc_table := by
  induction n with
  | zero => simp
  | succ k ih =>
    rw [List.range_succ, List.foldl_append, List.foldl_cons, List.foldl_nil,
      format_step_alloc, ih]

lemma format_fold_e_alloc (f : format_type_t) (s : FS) (n : Nat) :
    ((List.range n).foldl (format_step f) s).e_alloc = s.e_alloc := by
  induction n with
  | zero => simp
  | succ k ih =>
    rw [List.range_succ, List.foldl_append, List.foldl_cons, List.foldl_nil,
      format_step_e_alloc, ih]

lemma format_blocks_eq (s : FS) (f : format_type_t) (hw : f ≠ format_type_t.FORMAT_WIPE)
    (b : Nat) (hb : b < EEPROM_FS_NUM_BLOCKS) :
    (format_eepromfs s f).blocks b =
      { next_block := (b : Int) - 1,
        data := if f = format_type_t.FORMAT_FULL then
            List.replicate EEPROM_FS_BLOCK_DATA_SIZE 0
          else (s.blocks b).data } := by
  unfold format_eepromfs format_reset_tables
  dsimp only
  rw [if_neg hw]
  simp only [fsDebug_blocks]
  rw [format_fold_blocks f _ EEPROM_FS_NUM_BLOCKS (le_refl _) b, if_pos hb]
  simp

lemma format_alloc_eq (s : FS) (f : format_type_t) (g : Nat) :
    (format_eepromfs s f).alloc_table g =
      if g = EEPROM_FS_MAX_FILES then
        { filesize := 0, data_block := (EEPROM_FS_NUM_BLOCKS : Int) - 1 }
      else if g < EEPROM_FS_MAX_FILES then { filesize := 0, data_block := NULL_PTR }
      else s.alloc_table g := by
  unfold format_eepromfs format_reset_tables
  dsimp only
  split
  all_goals simp only [fsDebug_alloc, format_fold_alloc, wipe_eeprom_alloc]

lemma format_e_alloc_eq (s : FS) (f : format_type_t) (g : Nat)
    (hg : g ≤ EEPROM_FS_MAX_FILES) :
    (format_eepromfs s f).e_alloc g = (format_eepromfs s f).alloc_table g := by
  unfold format_eepromfs format_reset_tables
  dsimp only
  split
  all_goals simp only [fsDebug_e_alloc, fsDebug_alloc]
  all_goals rw [if_pos hg]

lemma format_e_meta_eq (s : FS) (f : format_type_t) :
    (format_eepromfs s f).e_meta = this_meta := by
  unfold format_eepromfs format_reset_tables
  dsimp only
  split
  all_goals simp

lemma fs0_blocks (b : Nat) (hb : b < EEPROM_FS_NUM_BLOCKS) :
    fs0.blocks b =
      { next_block := (b : Int) - 1,
        data := List.replicate EEPROM_FS_BLOCK_DATA_SIZE 0 } := by
  unfold fs0
  rw [format_blocks_eq _ _ (by decide) b hb]
  simp

lemma fs0_alloc_file (g : Nat) (hg : g < EEPROM_FS_MAX_FILES) :
    fs0.alloc_table g = { filesize := 0, data_block := NULL_PTR } := by
  unfold fs0
  rw [format_alloc_eq, if_neg (by omega), if_pos hg]

lemma fs0_alloc_sentinel :
    fs0.alloc_table EEPROM_FS_MAX_FILES =
      { filesize := 0, data_block := (EEPROM_FS_NUM_BLOCKS : Int) - 1 } := by
  unfold fs0
  rw [format_alloc_eq, if_pos rfl]

/-
Congruence: two states with the same core (blocks, both allocation
tables, metadata) are driven to states with the same core and the same
non-state results by every operation; the debug level and the log never
influence anything but the log.
-/

lemma set_debug_sameCore (s : FS) (l : Nat) : sameCore (set_debug s l) s :=
  ⟨rfl, rfl, rfl, rfl⟩

lemma foldl_fsDebug_sameCore (lvl : Nat) (g : Nat → Msg) :
    ∀ (L : List Nat) (s : FS),
      sameCore (L.foldl (fun t j => fsDebug lvl t (g j)) s) s := by
  intro L
  induction L with
  | nil => intro s; exact sameCore_refl s
  | cons a l ih => intro s; exact sameCore_trans (ih _) (fsDebug_sameCore _ _ _)

lemma copyBufLog_sameCore (s : FS) (d : List Nat) (base nb : Nat) :
    sameCore (copyBufLog s d base nb) s :=
  foldl_fsDebug_sameCore 4 _ _ s

lemma copyLocalLog_sameCore (s : FS) (d : List Nat) (base nb : Nat) :
    sameCore (copyLocalLog s d base nb) s :=
  foldl_fsDebug_sameCore 4 _ _ s

lemma fsDebug_congr {s t : FS} (h : sameCore s t) (n : Nat) (m m' : Msg) :
    sameCore (fsDebug n s m) (fsDebug n t m') :=
  sameCore_trans (fsDebug_sameCore _ _ _) (sameCore_trans h (sameCore_symm (fsDebug_sameCore _ _ _)))

lemma fsError_congr {s t : FS} (h : sameCore s t) (m m' : Msg) :
    sameCore (fsError s m) (fsError t m') :=
  sameCore_trans (fsError_sameCore _ _) (sameCore_trans h (sameCore_symm (fsError_sameCore _ _)))

lemma setBlockNext_congr {s t : FS} (h : sameCore s t) (b tg : Int) :
    sameCore (setBlockNext s b tg) (setBlockNext t b tg) := by
  obtain ⟨hb, ha, he, hm⟩ := h
  unfold setBlockNext setBlockNextWrapped
  by_cases hg : 0 ≤ b ∧ b < (EEPROM_FS_NUM_BLOCKS : Int)
  · simp only [if_pos hg]
    exact ⟨by rw [hb], ha, he, hm⟩
  · simp only [if_neg hg]
    split
    · exact ⟨by rw [hb], ha, he, hm⟩
    · split
      · exact ⟨hb, ha, by rw [he], hm⟩
      · split
        · exact ⟨hb, ha, he, by rw [hm]⟩
        · exact ⟨hb, ha, he, hm⟩

lemma setWholeBlock_congr {s t : FS} (h : sameCore s t) (b : Nat) (blk : block_t) :
    sameCore (setWholeBlock s b blk) (setWholeBlock t b blk) := by
  obtain ⟨hb, ha, he, hm⟩ := h
  refine ⟨funext fun x => ?_, ha, he, hm⟩
  rw [setWholeBlock_blocks, setWholeBlock_blocks, hb]

lemma setBlockData_congr {s t : FS} (h : sameCore s t) (b : Nat) (d : List Nat) :
    sameCore (setBlockData s b d) (setBlockData t b d) := by
  obtain ⟨hb, ha, he, hm⟩ := h
  refine ⟨funext fun x => ?_, ha, he, hm⟩
  rw [setBlockData_blocks, setBlockData_blocks, hb]

lemma setAlloc_congr {s t : FS} (h : sameCore s t) (i : Nat) (e : file_alloc_t) :
    sameCore (setAlloc s i e) (setAlloc t i e) := by
  obtain ⟨hb, ha, he, hm⟩ := h
  refine ⟨hb, funext fun x => ?_, he, hm⟩
  rw [setAlloc_alloc, setAlloc_alloc, ha]

lemma setEAlloc_congr {s t : FS} (h : sameCore s t) (i : Nat) (e : file_alloc_t) :
    sameCore (setEAlloc s i e) (setEAlloc t i e) := by
  obtain ⟨hb, ha, he, hm⟩ := h
  refine ⟨hb, ha, funext fun x => ?_, hm⟩
  rw [setEAlloc_e_alloc, setEAlloc_e_alloc, he]

lemma setNextFree_congr {s t : FS} (h : sameCore s t) (b : Int) :
    sameCore (setNextFree s b) (setNextFree t b) := by
  have ha := h.2.1
  unfold setNextFree
  rw [ha]
  exact setAlloc_congr h _ _

lemma next_free_congr {s t : FS} (h : sameCore s t) : s.next_free = t.next_free := by
  rw [next_free_eq, next_free_eq, h.2.1]

lemma lastChainLoop_snd_congr :
    ∀ (fuel : Nat) {s t : FS}, s.blocks = t.blocks → ∀ b : Int,
      (lastChainLoop fuel s b).2 = (lastChainLoop fuel t b).2 := by
  intro fuel
  induction fuel with
  | zero => intro s t h b; rfl
  | succ n ih =>
    intro s t h b
    unfold lastChainLoop
    dsimp only
    rw [getBlock_congr (show (fsDebug 4 s (Msg.checkingBlock b)).blocks
        = (fsDebug 4 t (Msg.checkingBlock b)).blocks by simp [h]) b]
    by_cases hc : (getBlock (fsDebug 4 t (Msg.checkingBlock b)) b).next_block ≠ NULL_PTR
    · simp only [if_pos hc]
      exact ih (by simp [h]) _
    · simp only [if_neg hc]

lemma last_block_in_chain_snd_congr {s t : FS} (h : s.blocks = t.blocks) (b : Int) :
    (last_block_in_chain s b).2 = (last_block_in_chain t b).2 := by
  unfold last_block_in_chain
  by_cases hg : 0 ≤ b ∧ b < (EEPROM_FS_NUM_BLOCKS : Int)
  · simp only [if_pos hg]
    exact lastChainLoop_snd_congr _ (by simp [h]) b
  · simp only [if_neg hg]

lemma last_block_in_chain_congr {s t : FS} (h : sameCore s t) (b : Int) :
    sameCore (last_block_in_chain s b).1 (last_block_in_chain t b).1 ∧
      (last_block_in_chain s b).2 = (last_block_in_chain t b).2 :=
  ⟨sameCore_trans (last_block_in_chain_sameCore _ _)
      (sameCore_trans h (sameCore_symm (last_block_in_chain_sameCore _ _))),
   last_block_in_chain_snd_congr h.1 b⟩

lemma unlink_congr {s t : FS} (h : sameCore s t) (b : Int) :
    sameCore (unlink s b) (unlink t b) := by
  unfold unlink
  by_cases hg : 0 ≤ b ∧ b < (EEPROM_FS_NUM_BLOCKS : Int)
  · simp only [if_pos hg]
    have h1 : sameCore (fsDebug 1 s (Msg.unlinking b)) (fsDebug 1 t (Msg.unlinking b)) :=
      fsDebug_congr h 1 _ _
    rw [next_free_congr h1]
    have h2 := last_block_in_chain_congr h1 (fsDebug 1 t (Msg.unlinking b)).next_free
    exact fsDebug_congr (by rw [h2.2]; exact setBlockNext_congr h2.1 _ b) 1 _ _
  · simp only [if_neg hg]
    exact fsError_congr h _ _

lemma relink_congr {s t : FS} (h : sameCore s t) (b tg : Int) :
    sameCore (relink s b tg) (relink t b tg) := by
  unfold relink
  by_cases hg : 0 ≤ b ∧ b < (EEPROM_FS_NUM_BLOCKS : Int)
  · simp only [if_pos hg]
    by_cases ht : NULL_PTR ≤ tg ∧ tg < (EEPROM_FS_NUM_BLOCKS : Int)
    · simp only [if_pos ht]
      exact fsDebug_congr (setBlockNext_congr (fsDebug_congr h 3 _ _) b tg) 3 _ _
    · simp only [if_neg ht]
      exact fsError_congr h _ _
  · simp only [if_neg hg]
    exact fsError_congr h _ _

lemma setEAllocTable_congr {u v : FS} (h : sameCore u v) (i j : Nat) :
    sameCore (setEAlloc u i (u.alloc_table j)) (setEAlloc v i (v.alloc_table j)) := by
  rw [h.2.1]
  exact setEAlloc_congr h i _

lemma link_congr {s t : FS} (h : sameCore s t) (fh : file_handle_t) :
    sameCore (link s fh) (link t fh) := by
  unfold link
  by_cases hg : 0 ≤ fh.first_block ∧ fh.first_block < (EEPROM_FS_NUM_BLOCKS : Int)
  · simp only [if_pos hg]
    have h1 : sameCore (fsDebug 1 s (Msg.linking fh.filename fh.first_block))
        (fsDebug 1 t (Msg.linking fh.filename fh.first_block)) := fsDebug_congr h 1 _ _
    have h2 := setAlloc_congr h1 (fh.filename % EEPROM_FS_MAX_FILES)
      { filesize := fh.filesize, data_block := fh.first_block }
    exact fsDebug_congr
      (setEAllocTable_congr (setEAllocTable_congr h2 _ _) EEPROM_FS_MAX_FILES
        EEPROM_FS_MAX_FILES) 1 _ _
  · simp only [if_neg hg]
    exact fsError_congr h _ _

lemma write_block_data_congr {s t : FS} (h : sameCore s t) (d : List Nat) :
    sameCore (write_block_data s d).1 (write_block_data t d).1 ∧
      (write_block_data s d).2 = (write_block_data t d).2 := by
  constructor
  all_goals unfold write_block_data
  all_goals rw [next_free_congr h]
  all_goals by_cases hg : 0 ≤ t.next_free ∧ t.next_free < (EEPROM_FS_NUM_BLOCKS : Int)
  · simp only [if_pos hg]
    rw [getBlock_congr h.1 t.next_free]
    exact fsDebug_congr (fsDebug_congr (setBlockData_congr
      (fsDebug_congr (setNextFree_congr h _) 2 _ _) _ d) 2 _ _) 3 _ _
  · simp only [if_neg hg]
    exact fsError_congr h _ _
  · simp only [if_pos hg]
  · simp only [if_neg hg]

lemma readLoop_snd_congr :
    ∀ (fuel : Nat) {s t : FS}, s.blocks = t.blocks →
      ∀ (cur : Int) (i nb fsz : Nat) (buf : Nat → Nat),
        (readLoop fuel s cur i nb fsz buf).2 = (readLoop fuel t cur i nb fsz buf).2 := by
  intro fuel
  induction fuel with
  | zero => intro s t h cur i nb fsz buf; rfl
  | succ n ih =>
    intro s t h cur i nb fsz buf
    unfold readLoop
    dsimp only
    rw [getBlock_congr (show (fsDebug 3 s (Msg.readingBlock cur)).blocks
        = (fsDebug 3 t (Msg.readingBlock cur)).blocks by simp [h]) cur]
    set blk := getBlock (fsDebug 3 t (Msg.readingBlock cur)) cur with hblk
    by_cases hc : blk.next_block ≠ NULL_PTR
    · simp only [if_pos hc]
      apply ih
      rw [(copyBufLog_sameCore _ _ _ _).1, (copyBufLog_sameCore _ _ _ _).1]
      simp [h]
    · simp only [if_neg hc]

lemma read_snd_congr {s t : FS} (h : s.blocks = t.blocks) (fh : file_handle_t)
    (buf : Nat → Nat) : (read s fh buf).2 = (read t fh buf).2 := by
  unfold read
  by_cases hg : 0 ≤ fh.first_block ∧ fh.first_block < (EEPROM_FS_NUM_BLOCKS : Int)
  · simp only [if_pos hg]
    exact readLoop_snd_congr _ h _ _ _ _ buf
  · simp only [if_neg hg]

lemma readLoop_fst_sameCore :
    ∀ (fuel : Nat) (s : FS) (cur : Int) (i nb fsz : Nat) (buf : Nat → Nat),
      sameCore (readLoop fuel s cur i nb fsz buf).1 s := by
  intro fuel
  induction fuel with
  | zero => intro s cur i nb fsz buf; exact sameCore_refl s
  | succ n ih =>
    intro s cur i nb fsz buf
    unfold readLoop
    dsimp only
    split
    · exact sameCore_trans (ih _ _ _ _ _ _)
        (sameCore_trans (copyBufLog_sameCore _ _ _ _)
          (sameCore_trans (fsDebug_sameCore _ _ _) (fsDebug_sameCore _ _ _)))
    · exact sameCore_trans (copyBufLog_sameCore _ _ _ _)
        (sameCore_trans (fsDebug_sameCore _ _ _) (fsDebug_sameCore _ _ _))

lemma read_fst_sameCore (s : FS) (fh : file_handle_t) (buf : Nat → Nat) :
    sameCore (read s fh buf).1 s := by
  unfold read
  split
  · exact readLoop_fst_sameCore _ _ _ _ _ _ _
  · exact fsError_sameCore _ _

lemma writeLoop_congr :
    ∀ (n : Nat) {s t : FS}, sameCore s t →
      ∀ (fh : file_handle_t) (data local_data : List Nat) (i nb sz : Nat),
        sameCore (writeLoop n s fh data local_data i nb sz).1
            (writeLoop n t fh data local_data i nb sz).1 ∧
          (writeLoop n s fh data local_data i nb sz).2.1
            = (writeLoop n t fh data local_data i nb sz).2.1 ∧
          (writeLoop n s fh data local_data i nb sz).2.2
            = (writeLoop n t fh data local_data i nb sz).2.2 := by
  intro n
  induction n with
  | zero => intro s t h fh data local_data i nb sz; exact ⟨h, rfl, rfl⟩
  | succ k ih =>
    intro s t h fh data local_data i nb sz
    unfold writeLoop
    dsimp only
    have hlog : sameCore
        (copyLocalLog s data (i * EEPROM_FS_BLOCK_DATA_SIZE)
          (if (i + 1) * EEPROM_FS_BLOCK_DATA_SIZE > sz then
            sz % EEPROM_FS_BLOCK_DATA_SIZE else nb))
        (copyLocalLog t data (i * EEPROM_FS_BLOCK_DATA_SIZE)
          (if (i + 1) * EEPROM_FS_BLOCK_DATA_SIZE > sz then
            sz % EEPROM_FS_BLOCK_DATA_SIZE else nb)) :=
      sameCore_trans (copyLocalLog_sameCore _ _ _ _)
        (sameCore_trans h (sameCore_symm (copyLocalLog_sameCore _ _ _ _)))
    have hw := write_block_data_congr hlog
      (copyLocalList local_data data (i * EEPROM_FS_BLOCK_DATA_SIZE)
        (if (i + 1) * EEPROM_FS_BLOCK_DATA_SIZE > sz then
          sz % EEPROM_FS_BLOCK_DATA_SIZE else nb))
    rw [hw.2]
    exact ih hw.1 _ data _ (i + 1) _ sz

lemma write_merge_congr {s t : FS} (h : sameCore s t) (fh : file_handle_t)
    (data : List Nat) (sz : Nat) :
    sameCore (write_merge s fh data sz).1 (write_merge t fh data sz).1 ∧
      (write_merge s fh data sz).2 = (write_merge t fh data sz).2 := by
  unfold write_merge
  by_cases hap : fh.type = handle_type.FH_APPEND ∧
      fh.filesize % EEPROM_FS_BLOCK_DATA_SIZE > 0
  · simp only [if_pos hap]
    rw [h.2.1]
    have hq := last_block_in_chain_congr h (t.alloc_table fh.filename).data_block
    rw [hq.2]
    refine ⟨sameCore_trans (read_fst_sameCore _ _ _)
      (sameCore_trans hq.1 (sameCore_symm (read_fst_sameCore _ _ _))), ?_⟩
    rw [read_snd_congr hq.1.1]
  · simp only [if_neg hap]
    exact ⟨h, trivial⟩

lemma write_capacity_congr {s t : FS} (h : sameCore s t) (fh : file_handle_t) (sz : Nat) :
    sameCore (write_capacity s fh sz).1 (write_capacity t fh sz).1 ∧
      (write_capacity s fh sz).2 = (write_capacity t fh sz).2 := by
  unfold write_capacity
  dsimp only
  rw [h.2.1]
  split
  · exact ⟨fsError_congr h _ _, rfl⟩
  · exact ⟨h, rfl⟩

lemma write_congr {s t : FS} (h : sameCore s t) (fh : file_handle_t)
    (data : List Nat) (sz : Nat) :
    sameCore (write s fh data sz).1 (write t fh data sz).1 ∧
      (write s fh data sz).2 = (write t fh data sz).2 := by
  unfold write
  by_cases hty : fh.type = handle_type.FH_WRITE ∨ fh.type = handle_type.FH_APPEND
  · simp only [if_pos hty]
    have hm := write_merge_congr h fh data sz
    rw [hm.2]
    have h1 : sameCore (fsDebug 1 (write_merge s fh data sz).1
        (Msg.writingBytes (write_merge t fh data sz).2.2 fh.filename))
        (fsDebug 1 (write_merge t fh data sz).1
        (Msg.writingBytes (write_merge t fh data sz).2.2 fh.filename)) :=
      fsDebug_congr hm.1 1 _ _
    have hc := write_capacity_congr h1 fh (write_merge t fh data sz).2.2
    rw [hc.2]
    split
    · dsimp only
      rw [next_free_congr hc.1]
      have hw := writeLoop_congr
        (write_capacity (fsDebug 1 (write_merge t fh data sz).1
          (Msg.writingBytes (write_merge t fh data sz).2.2 fh.filename)) fh
          (write_merge t fh data sz).2.2).2
        hc.1
        { fh with first_block := (write_capacity (fsDebug 1 (write_merge t fh data sz).1
            (Msg.writingBytes (write_merge t fh data sz).2.2 fh.filename)) fh
            (write_merge t fh data sz).2.2).1.next_free }
        (write_merge t fh data sz).2.1
        (List.replicate EEPROM_FS_BLOCK_DATA_SIZE 0) 0 EEPROM_FS_BLOCK_DATA_SIZE
        (write_merge t fh data sz).2.2
      rw [hw.2.1]
      exact ⟨fsDebug_congr hw.1 1 _ _, rfl⟩
    · exact ⟨fsError_congr hc.1 _ _, rfl⟩
  · simp only [if_neg hty]
    exact ⟨fsError_congr h _ _, trivial⟩

lemma read_congr {s t : FS} (h : sameCore s t) (fh : file_handle_t) (buf : Nat → Nat) :
    sameCore (read s fh buf).1 (read t fh buf).1 ∧ (read s fh buf).2 = (read t fh buf).2 :=
  ⟨sameCore_trans (read_fst_sameCore _ _ _)
      (sameCore_trans h (sameCore_symm (read_fst_sameCore _ _ _))),
   read_snd_congr h.1 fh buf⟩

lemma close_commit_congr {s t : FS} (h : sameCore s t) (fh : file_handle_t) :
    sameCore (close_commit s fh).1 (close_commit t fh).1 ∧
      (close_commit s fh).2 = (close_commit t fh).2 := by
  unfold close_commit
  simp only [fsDebug_alloc]
  rw [h.2.1]
  by_cases hty : fh.type = handle_type.FH_APPEND
  · simp only [if_pos hty]
    by_cases hsz : (t.alloc_table fh.filename).filesize > EEPROM_FS_BLOCK_DATA_SIZE
    · simp only [if_pos hsz]
      have hq := last_block_in_chain_congr h (t.alloc_table fh.filename).data_block
      rw [hq.2]
      exact ⟨fsDebug_congr (relink_congr (fsDebug_congr hq.1 2 _ _) _ _) 2 _ _, by trivial⟩
    · simp only [if_neg hsz]
      by_cases hz : (t.alloc_table fh.filename).filesize > 0
      · simp only [if_pos hz]
        exact ⟨link_congr (unlink_congr h _) _, by trivial⟩
      · simp only [if_neg hz]
        exact ⟨link_congr h _, by trivial⟩
  · simp only [if_neg hty]
    exact ⟨link_congr h fh, by trivial⟩

lemma close_congr {s t : FS} (h : sameCore s t) (fh : file_handle_t) :
    sameCore (close s fh) (close t fh) := by
  unfold close
  dsimp only
  have hp := close_commit_congr (fsDebug_congr h 1 (Msg.finalising fh.filename)
    (Msg.finalising fh.filename)) fh
  rw [hp.2]
  exact fsDebug_congr (relink_congr (fsDebug_congr hp.1 2 _ _) _ _) 1 _ _

lemma delete_congr {s t : FS} (h : sameCore s t) (n : Nat) :
    sameCore (delete s n) (delete t n) := by
  unfold delete
  dsimp only
  by_cases hf : n > EEPROM_FS_MAX_FILES
  · simp only [if_pos hf]
    simp only [fsDebug_alloc]
    rw [h.2.1]
    exact fsDebug_congr (setEAllocTable_congr (setAlloc_congr (unlink_congr
      (fsDebug_congr (fsDebug_congr h 1 _ _) 2 _ _) _) _ _) _ _) 1 _ _
  · simp only [if_neg hf]
    simp only [fsDebug_alloc]
    rw [h.2.1]
    exact fsDebug_congr (setEAllocTable_congr (setAlloc_congr (unlink_congr
      (fsDebug_congr h 1 _ _) _) _ _) _ _) 1 _ _

lemma open_for_write_congr {s t : FS} (h : sameCore s t) (n : Nat) :
    sameCore (open_for_write s n).1 (open_for_write t n).1 ∧
      (open_for_write s n).2 = (open_for_write t n).2 := by
  unfold open_for_write
  by_cases hf : n > EEPROM_FS_MAX_FILES
  · simp only [if_pos hf]
    exact ⟨fsDebug_congr (fsDebug_congr (fsDebug_congr h 1 _ _) 2 _ _) 1 _ _, trivial⟩
  · simp only [if_neg hf]
    exact ⟨fsDebug_congr (fsDebug_congr h 1 _ _) 1 _ _, trivial⟩

lemma open_for_append_congr {s t : FS} (h : sameCore s t) (n : Nat) :
    sameCore (open_for_append s n).1 (open_for_append t n).1 ∧
      (open_for_append s n).2 = (open_for_append t n).2 := by
  unfold open_for_append
  by_cases hf : n > EEPROM_FS_MAX_FILES
  · simp only [if_pos hf, fsDebug_alloc]
    rw [h.2.1]
    exact ⟨fsDebug_congr (fsDebug_congr (fsDebug_congr h 1 _ _) 2 _ _) 1 _ _, by trivial⟩
  · simp only [if_neg hf, fsDebug_alloc]
    rw [h.2.1]
    exact ⟨fsDebug_congr (fsDebug_congr h 1 _ _) 1 _ _, by trivial⟩

lemma open_for_read_congr {s t : FS} (h : sameCore s t) (n : Nat) :
    sameCore (open_for_read s n).1 (open_for_read t n).1 ∧
      (open_for_read s n).2 = (open_for_read t n).2 := by
  unfold open_for_read
  by_cases hf : n > EEPROM_FS_MAX_FILES
  · simp only [if_pos hf, fsDebug_alloc]
    rw [h.2.1]
    split
    · exact ⟨fsError_congr (fsDebug_congr (fsDebug_congr h 1 _ _) 2 _ _) _ _, by trivial⟩
    · exact ⟨fsDebug_congr (fsDebug_congr (fsDebug_congr h 1 _ _) 2 _ _) 1 _ _, by trivial⟩
  · simp only [if_neg hf, fsDebug_alloc]
    rw [h.2.1]
    split
    · exact ⟨fsError_congr (fsDebug_congr h 1 _ _) _ _, by trivial⟩
    · exact ⟨fsDebug_congr (fsDebug_congr h 1 _ _) 1 _ _, by trivial⟩

lemma wipe_congr {s t : FS} (h : sameCore s t) :
    sameCore (wipe_eeprom s) (wipe_eeprom t) :=
  ⟨rfl, h.2.1, rfl, rfl⟩

lemma format_step_congr (f : format_type_t) {s t : FS} (h : sameCore s t) (i : Nat) :
    sameCore (format_step f s i) (format_step f t i) := by
  unfold format_step
  split
  · exact fsDebug_congr (setWholeBlock_congr (fsDebug_congr h 3 _ _) _ _) 3 _ _
  · exact relink_congr h _ _

lemma format_fold_congr (f : format_type_t) :
    ∀ (L : List Nat) {s t : FS}, sameCore s t →
      sameCore (L.foldl (format_step f) s) (L.foldl (format_step f) t) := by
  intro L
  induction L with
  | nil => intro s t h; exact h
  | cons a l ih => intro s t h; exact ih (format_step_congr f h a)

lemma format_reset_tables_congr {u v : FS} (h : sameCore u v) :
    sameCore (format_reset_tables u) (format_reset_tables v) := by
  obtain ⟨hb, ha, he, hm⟩ := h
  unfold format_reset_tables
  refine ⟨hb, ?_, ?_, hm⟩
  · funext i
    dsimp only
    rw [ha]
  · funext i
    dsimp only
    rw [ha, he]

lemma set_e_meta_congr {u v : FS} (h : sameCore u v) (m : fs_meta_t) :
    sameCore { u with e_meta := m } { v with e_meta := m } :=
  ⟨h.1, h.2.1, h.2.2.1, rfl⟩

lemma format_congr {s t : FS} (h : sameCore s t) (f : format_type_t) :
    sameCore (format_eepromfs s f) (format_eepromfs t f) := by
  unfold format_eepromfs
  dsimp only
  have h1 : sameCore
      (if f = format_type_t.FORMAT_WIPE then wipe_eeprom (fsDebug 1 s Msg.formatting)
        else fsDebug 1 s Msg.formatting)
      (if f = format_type_t.FORMAT_WIPE then wipe_eeprom (fsDebug 1 t Msg.formatting)
        else fsDebug 1 t Msg.formatting) := by
    split
    · exact wipe_congr (fsDebug_congr h 1 _ _)
    · exact fsDebug_congr h 1 _ _
  have h2 := format_fold_congr f (List.range EEPROM_FS_NUM_BLOCKS) h1
  exact fsDebug_congr (fsDebug_congr (set_e_meta_congr (fsDebug_congr (fsDebug_congr
    (format_reset_tables_congr (fsDebug_congr h2 2 _ _)) 2 _ _) 2 _ _) this_meta) 2 _ _) 1 _ _

/-
Exact characterisation of the write path (block splitting over the free
chain) and of the read path (chain walk into the buffer), used for the
round-trip and size-to-length theorems.
-/

lemma getD_set (xs : List Nat) (i j v : Nat) (hi : i < xs.length) :
    (xs.set i v).getD j 0 = if j = i then v else xs.getD j 0 := by
  rcases Nat.lt_or_ge j xs.length with hj | hj
  · by_cases h : j = i
    · subst h
      rw [if_pos rfl, List.getD_eq_getElem _ _ (by simp [hj]), List.getElem_set_self]
    · rw [if_neg h, List.getD_eq_getElem _ _ (by simp [hj]), List.getD_eq_getElem _ _ hj,
        List.getElem_set_ne (by omega)]
  · rw [if_neg (by omega), List.getD_eq_default _ _ (by simp [hj]),
      List.getD_eq_default _ _ hj]

lemma copyLocalList_succ (l d : List Nat) (base k : Nat) :
    copyLocalList l d base (k + 1) =
      (copyLocalList l d base k).set k (d.getD (base + k) 0) := by
  unfold copyLocalList
  rw [List.range_succ, List.foldl_append, List.foldl_cons, List.foldl_nil]

lemma copyLocalList_length (l d : List Nat) (base : Nat) :
    ∀ k, (copyLocalList l d base k).length = l.length := by
  intro k
  induction k with
  | zero => rfl
  | succ k ih => rw [copyLocalList_succ, List.length_set, ih]

lemma copyLocalList_getD (l d : List Nat) (base : Nat) :
    ∀ k, k ≤ l.length → ∀ j, j < l.length →
      (copyLocalList l d base k).getD j 0 =
        if j < k then d.getD (base + j) 0 else l.getD j 0 := by
  intro k
  induction k with
  | zero =>
    intro hk j hj
    rw [if_neg (by omega)]
    rfl
  | succ k ih =>
    intro hk j hj
    rw [copyLocalList_succ, getD_set _ _ _ _ (by rw [copyLocalList_length]; omega),
      ih (by omega) j hj]
    by_cases hjk : j = k
    · subst hjk
      rw [if_pos rfl, if_pos (by omega)]
    · rw [if_neg hjk]
      by_cases hlt : j < k
      · rw [if_pos hlt, if_pos (by omega)]
      · rw [if_neg hlt, if_neg (by omega)]

lemma copyBufFun_succ (buf : Nat → Nat) (d : List Nat) (base k : Nat) :
    copyBufFun buf d base (k + 1) =
      updBuf (copyBufFun buf d base k) (base + k) (d.getD k 0) := by
  unfold copyBufFun
  rw [List.range_succ, List.foldl_append, List.foldl_cons, List.foldl_nil]

lemma copyBufFun_eq (buf : Nat → Nat) (d : List Nat) (base : Nat) :
    ∀ k x, copyBufFun buf d base k x =
      if base ≤ x ∧ x < base + k then d.getD (x - base) 0 else buf x := by
  intro k
  induction k with
  | zero =>
    intro x
    rw [if_neg (by omega)]
    rfl
  | succ k ih =>
    intro x
    rw [copyBufFun_succ]
    unfold updBuf
    by_cases hx : x = base + k
    · subst hx
      rw [if_pos rfl, if_pos (by omega)]
      congr 1
      omega
    · rw [if_neg hx, ih x]
      by_cases hin : base ≤ x ∧ x < base + k
      · rw [if_pos hin, if_pos (by omega)]
      · rw [if_neg hin, if_neg (by omega)]

lemma write_block_data_spec (s : FS) (d : List Nat) (m : Nat)
    (h1 : s.next_free = (m : Int)) (h2 : m < EEPROM_FS_NUM_BLOCKS) :
    (write_block_data s d).2 = (m : Int) ∧
    (write_block_data s d).1.next_free = (s.blocks m).next_block ∧
    (∀ g, g ≠ EEPROM_FS_MAX_FILES →
        (write_block_data s d).1.alloc_table g = s.alloc_table g) ∧
    (write_block_data s d).1.e_alloc = s.e_alloc ∧
    (write_block_data s d).1.e_meta = s.e_meta ∧
    (∀ b : Nat, b ≠ m → (write_block_data s d).1.blocks b = s.blocks b) ∧
    (write_block_data s d).1.blocks m
        = { next_block := (s.blocks m).next_block, data := d } := by
  have hg : 0 ≤ s.next_free ∧ s.next_free < (EEPROM_FS_NUM_BLOCKS : Int) := by
    rw [h1, NUMBI_eq]
    rw [NUMB_eq] at h2
    omega
  have hget : getBlock s s.next_free = s.blocks m := by
    unfold getBlock
    rw [if_pos hg, h1, Int.toNat_natCast]
  unfold write_block_data
  rw [if_pos hg]
  dsimp only
  rw [hget]
  refine ⟨by rw [h1], ?_, ?_, by simp [setNextFree], by simp [setNextFree], ?_, ?_⟩
  · simp only [fsDebug_alloc, setBlockData_alloc, next_free_eq, fsDebug_alloc]
    unfold setNextFree
    rw [setAlloc_alloc, if_pos rfl]
  · intro g hgm
    simp only [fsDebug_alloc, setBlockData_alloc]
    unfold setNextFree
    rw [setAlloc_alloc, if_neg hgm]
  · intro b hb
    simp only [fsDebug_blocks]
    rw [setBlockData_blocks]
    rw [if_neg (by rw [h1, Int.toNat_natCast]; exact hb)]
    simp [setNextFree]
  · simp only [fsDebug_blocks]
    rw [setBlockData_blocks]
    rw [h1, Int.toNat_natCast, if_pos rfl]
    simp [setNextFree]

/-- What one run of the block-splitting loop of `write` does, starting at
free-chain head `m` with `n` blocks left and block index `i`: it fills
blocks `m, m-1, …, m-n+1` (whose stored `next` pointers descend and are
left in place), advances the free head by `n`, touches no other block and
no file entry, and records the last block in the handle. -/
structure WriteLoopOut (data : List Nat) (size n i m : Nat) (s sOut : FS)
    (fh fhOut : file_handle_t) : Prop where
  alloc_eq : ∀ g, g ≠ 29 → sOut.alloc_table g = s.alloc_table g
  nf : sOut.next_free = (m : Int) - n
  ealloc : sOut.e_alloc = s.e_alloc
  emeta : sOut.e_meta = s.e_meta
  lastb : 1 ≤ n → fhOut.last_block = ((m + 1 - n : Nat) : Int)
  firstb : fhOut.first_block = fh.first_block
  fname : fhOut.filename = fh.filename
  fsize : fhOut.filesize = fh.filesize
  ftype : fhOut.type = fh.type
  untouched : ∀ b : Nat, b + n ≤ m ∨ m < b → sOut.blocks b = s.blocks b
  nexts : ∀ t, t < n → (sOut.blocks (m - t)).next_block = ((m - t : Nat) : Int) - 1
  datas : ∀ t, t < n → ∀ j, j < 30 → j < size - (i + t) * 30 →
    (sOut.blocks (m - t)).data.getD j 0 = data.getD ((i + t) * 30 + j) 0

lemma writeLoop_spec (data : List Nat) (size : Nat) :
    ∀ (n : Nat) (s : FS) (fh : file_handle_t) (local_data : List Nat) (nbv i m : Nat),
      s.next_free = (m : Int) →
      m < 59 →
      n ≤ m + 1 →
      i + n = size / 30 + 1 →
      (1 ≤ n → nbv = 30) →
      (∀ t, t < n → (s.blocks (m - t)).next_block = ((m - t : Nat) : Int) - 1) →
      local_data.length = 30 →
      WriteLoopOut data size n i m s (writeLoop n s fh data local_data i nbv size).1
        fh (writeLoop n s fh data local_data i nbv size).2.1 := by
  intro n
  induction n with
  | zero =>
    intro s fh local_data nbv i m h1 h2 h3 h4 h5 h6 h7
    exact {
      alloc_eq := fun g _ => rfl
      nf := by
        show s.next_free = (m : Int) - ((0 : Nat) : Int)
        rw [h1]
        simp
      ealloc := rfl
      emeta := rfl
      lastb := by omega
      firstb := rfl
      fname := rfl
      fsize := rfl
      ftype := rfl
      untouched := fun b _ => rfl
      nexts := by omega
      datas := by omega }
  | succ n ih =>
    intro s fh local_data nbv i m h1 h2 h3 h4 h5 h6 h7
    have hnbv : nbv = 30 := h5 (by omega)
    have hstep : writeLoop (n + 1) s fh data local_data i nbv size =
        writeLoop n
          (write_block_data (copyLocalLog s data (i * EEPROM_FS_BLOCK_DATA_SIZE)
            (if (i + 1) * EEPROM_FS_BLOCK_DATA_SIZE > size then
              size % EEPROM_FS_BLOCK_DATA_SIZE else nbv))
            (copyLocalList local_data data (i * EEPROM_FS_BLOCK_DATA_SIZE)
              (if (i + 1) * EEPROM_FS_BLOCK_DATA_SIZE > size then
                size % EEPROM_FS_BLOCK_DATA_SIZE else nbv))).1
          { fh with last_block :=
            (write_block_data (copyLocalLog s data (i * EEPROM_FS_BLOCK_DATA_SIZE)
              (if (i + 1) * EEPROM_FS_BLOCK_DATA_SIZE > size then
                size % EEPROM_FS_BLOCK_DATA_SIZE else nbv))
              (copyLocalList local_data data (i * EEPROM_FS_BLOCK_DATA_SIZE)
                (if (i + 1) * EEPROM_FS_BLOCK_DATA_SIZE > size then
                  size % EEPROM_FS_BLOCK_DATA_SIZE else nbv))).2 }
          data
          (copyLocalList local_data data (i * EEPROM_FS_BLOCK_DATA_SIZE)
            (if (i + 1) * EEPROM_FS_BLOCK_DATA_SIZE > size then
              size % EEPROM_FS_BLOCK_DATA_SIZE else nbv))
          (i + 1)
          (if (i + 1) * EEPROM_FS_BLOCK_DATA_SIZE > size then
            size % EEPROM_FS_BLOCK_DATA_SIZE else nbv)
          size := rfl
    rw [hstep]
    rw [show (EEPROM_FS_BLOCK_DATA_SIZE : Nat) = 30 from rfl] at *
    set nb := (if (i + 1) * 30 > size then size % 30 else nbv) with hnbdef
    set ld := copyLocalList local_data data (i * 30) nb with hlddef
    set s1 := copyLocalLog s data (i * 30) nb with hs1def
    have hsc := copyLocalLog_sameCore s data (i * 30) nb
    have hnf1 : s1.next_free = (m : Int) := by
      rw [next_free_eq, hsc.2.1, ← next_free_eq, h1]
    have hbl1 : s1.blocks = s.blocks := hsc.1
    have hw := write_block_data_spec s1 ld m hnf1 (by rw [NUMB_eq]; omega)
    obtain ⟨hw2, hwnf, hwalloc, hwea, hwem, hwother, hwm⟩ := hw
    have hnext0 := h6 0 (by omega)
    rw [Nat.sub_zero] at hnext0
    have hldlen : ld.length = 30 := by
      rw [hlddef, copyLocalList_length, h7]
    have hnb30 : nb ≤ 30 := by
      rw [hnbdef]
      split
      · omega
      · omega
    have hjnb : ∀ j, j < 30 → j < size - i * 30 → j < nb := by
      intro j hj30 hjsz
      rw [hnbdef]
      split
      · rename_i hcond
        have : i = size / 30 := by omega
        omega
      · omega
    have hdata0 : ∀ j, j < 30 → j < size - i * 30 →
        ld.getD j 0 = data.getD (i * 30 + j) 0 := by
      intro j hj30 hjsz
      rw [hlddef, copyLocalList_getD _ _ _ nb (by omega) j (by omega),
        if_pos (hjnb j hj30 hjsz)]
    rcases Nat.eq_zero_or_pos n with hn0 | hn1
    · subst hn0
      show WriteLoopOut data size (0 + 1) i m s (write_block_data s1 ld).1 fh
        { fh with last_block := (write_block_data s1 ld).2 }
      refine {
        alloc_eq := fun g hg => by
          rw [hwalloc g (by rw [MAXF_eq]; exact hg), hsc.2.1]
        nf := by
          rw [hwnf, hbl1, hnext0]
          push_cast
          ring
        ealloc := by rw [hwea, hsc.2.2.1]
        emeta := by rw [hwem, hsc.2.2.2]
        lastb := fun _ => by
          show (write_block_data s1 ld).2 = _
          rw [hw2]
          congr 1
        firstb := rfl
        fname := rfl
        fsize := rfl
        ftype := rfl
        untouched := fun b hb => by
          rw [hwother b (by omega), hbl1]
        nexts := fun t ht => by
          have ht0 : t = 0 := by omega
          subst ht0
          rw [Nat.sub_zero, hwm]
          rw [hbl1]
          exact hnext0
        datas := fun t ht j hj30 hjsz => by
          have ht0 : t = 0 := by omega
          subst ht0
          rw [Nat.sub_zero, hwm]
          rw [Nat.add_zero] at hjsz ⊢
          exact hdata0 j hj30 hjsz }
    · have hm1 : 1 ≤ m := by omega
      have hcond : ¬ ((i + 1) * 30 > size) := by
        have hi1 : i + 1 ≤ size / 30 := by omega
        have := Nat.div_mul_le_self size 30
        have := Nat.mul_le_mul_right 30 hi1
        omega
      have hnbval : nb = 30 := by
        rw [hnbdef, if_neg hcond, hnbv]
      have hout := ih (write_block_data s1 ld).1
        { fh with last_block := (write_block_data s1 ld).2 } ld nb (i + 1) (m - 1)
        (by rw [hwnf, hbl1, hnext0]; omega)
        (by omega)
        (by omega)
        (by omega)
        (fun _ => hnbval)
        (by
          intro t ht
          have hne : m - 1 - t ≠ m := by omega
          rw [hwother _ hne, hbl1]
          have := h6 (t + 1) (by omega)
          have heq : m - (t + 1) = m - 1 - t := by omega
          rw [heq] at this
          exact this)
        hldlen
      refine {
        alloc_eq := fun g hg => by
          rw [hout.alloc_eq g hg, hwalloc g (by rw [MAXF_eq]; exact hg), hsc.2.1]
        nf := by
          rw [hout.nf]
          push_cast
          omega
        ealloc := by rw [hout.ealloc, hwea, hsc.2.2.1]
        emeta := by rw [hout.emeta, hwem, hsc.2.2.2]
        lastb := fun _ => by
          rw [hout.lastb (by omega)]
          congr 1
          omega
        firstb := hout.firstb
        fname := hout.fname
        fsize := hout.fsize
        ftype := hout.ftype
        untouched := fun b hb => by
          have hbm : b ≠ m := by omega
          rw [hout.untouched b (by omega), hwother b hbm, hbl1]
        nexts := fun t ht => by
          rcases Nat.eq_zero_or_pos t with ht0 | ht1
          · subst ht0
            rw [Nat.sub_zero]
            rw [hout.untouched m (by omega), hwm, hbl1]
            exact hnext0
          · obtain ⟨u, rfl⟩ : ∃ u, t = u + 1 := ⟨t - 1, by omega⟩
            have := hout.nexts u (by omega)
            have heq : m - 1 - u = m - (u + 1) := by omega
            rw [heq] at this
            exact this
        datas := fun t ht j hj30 hjsz => by
          rcases Nat.eq_zero_or_pos t with ht0 | ht1
          · subst ht0
            rw [Nat.sub_zero]
            rw [hout.untouched m (by omega), hwm]
            rw [Nat.add_zero] at hjsz ⊢
            have hjsz' : j < size - i * 30 := hjsz
            rw [hdata0 j hj30 hjsz']
          · obtain ⟨u, rfl⟩ : ∃ u, t = u + 1 := ⟨t - 1, by omega⟩
            have := hout.datas u (by omega) j hj30 (by
              have heq : i + 1 + u = i + (u + 1) := by omega
              rw [heq]
              exact hjsz)
            have heq : m - 1 - u = m - (u + 1) := by omega
            have heq2 : i + 1 + u = i + (u + 1) := by omega
            rw [heq, heq2] at this
            exact this }

/-- C1 counterexample.  The claim asserts the round trip yields
`filesize = |p|` regardless of what file previously existed under the
name.  With a 31-byte file already committed under name 6, writing a
240-byte payload through a fresh WRITE handle commits only 210 bytes:
`write` computes `blocks_in_use` from the allocation table's existing
entry (not zero for a WRITE handle), 1 + 240/30 = 9 > 8 triggers
truncation to 7 blocks, so the read-back handle reports 210, not 240. -/
theorem C1_roundtrip_cex :
    (open_for_read c1CexState 6).2.filesize = 210 ∧
      ¬ (open_for_read c1CexState 6).2.filesize = (List.replicate 240 66).length := by
  decide

/-- C2 failing input, evaluated.  After `write(7, a)` with `|a| = 13` and
`append(7, b)` with `|b| = 112`, the committed filesize is 138, not
`|a| + |b| = 125`: the APPEND merge folds the 13-byte tail into the new
chain and `close` then adds the full existing size on top of the already
merged committed size, double-counting the tail.  The subsequent read
therefore delivers 138 bytes, the last 13 of which are stale bytes of the
final block rather than payload, so the result is not `a ++ b`. -/
theorem C2_append_concat_bug :
    (open_for_read c2State 7).2.filesize = 138 ∧ ¬ (138 : Nat) = 13 + 112 := by
  decide

/-- C3 failing input, evaluated.  After appending 10 bytes to a 35-byte
file, the allocation entry still carries filesize 35 (and the old first
block 58): in the `existing_size > BLOCK_DATA_SIZE` branch `close` only
sums the sizes into the handle and relinks the chains, but never updates
the allocation entry in RAM or on storage, so the summed size
35 + 10 = 45 is lost.  The chain itself does get relinked (3 blocks). -/
theorem C3_append_alloc_entry_bug :
    (c3State.alloc_table 8).filesize = 35 ∧
      (c3State.alloc_table 8).data_block = 58 ∧
      (c3State.e_alloc 8).filesize = 35 ∧
      chainLen 60 c3State ((c3State.alloc_table 8).data_block) = 3 ∧
      ¬ (35 : Nat) = 35 + 10 := by
  decide

/-- C4 failing input, evaluated.  Writing 250 bytes to a fresh name is NOT
truncated: `blocks_in_use = 0`, `0 + 250/30 = 8` is not `> 8`, so `write`
takes the untruncated branch with `num_blocks = 250/30 + 1 = 9` and
commits filesize 250 over 9 blocks — exceeding MAX_BLOCKS_PER_FILE — and
the log stays empty (no Truncated error), where the claim expects a
Truncated error and a committed filesize of 240. -/
theorem C4_capacity_bug :
    (c4State.alloc_table 6).filesize = 250 ∧
      chainLen 60 c4State ((c4State.alloc_table 6).data_block) = 9 ∧
      c4State.log = [] := by
  decide

/-- C5 counterexample.  The fold applies only to names strictly greater
than MAX_FILES (`if (filename > EEPROM_FS_MAX_FILES)`), so the external
name `n = MAX_FILES = 29` is NOT folded: `open_for_read(29)` on a fresh
filesystem reads allocation entry 29 — the free-chain sentinel, whose
`data_block` is 58 — while `open_for_read(29 % 29) = open_for_read(0)`
reads entry 0 and reports file-not-found (`first_block = -1`). -/
theorem C5_name_folding_cex :
    (open_for_read fs0 29).2.first_block = 58 ∧
      (open_for_read fs0 (29 % 29)).2.first_block = NULL_PTR ∧
      ¬ (open_for_read fs0 29).2 = (open_for_read fs0 (29 % 29)).2 := by
  decide

/-- C6 counterexample.  A committed file of size 30 (an exact multiple of
BLOCK_DATA_SIZE) occupies 2 blocks, not `ceil(30/30) = 1`: the
untruncated write always emits `size / BLOCK_DATA_SIZE + 1` blocks,
including a trailing zero-payload block. -/
theorem C6_size_length_cex :
    (c6State.alloc_table 7).filesize = 30 ∧
      (c6State.alloc_table 7).data_block ≠ NULL_PTR ∧
      chainLen 60 c6State ((c6State.alloc_table 7).data_block) = 2 ∧
      ¬ (2 : Nat) = (30 + EEPROM_FS_BLOCK_DATA_SIZE - 1) / EEPROM_FS_BLOCK_DATA_SIZE := by
  decide

/-- C10.  Closing a WRITE handle through which no successful write
happened (both block cursors still hold the null sentinel, exactly as
`open_for_write` created them) leaves the RAM allocation table, its
persisted mirror, the metadata header and every block untouched: `link`
and `relink` both reject the out-of-range block, each with a logged
error, and perform no storage write. -/
theorem C10_close_empty_write (s : FS) (fh : file_handle_t)
    (h1 : fh.type = handle_type.FH_WRITE)
    (h2 : fh.first_block = NULL_PTR) (h3 : fh.last_block = NULL_PTR) :
    (close s fh).blocks = s.blocks ∧
    (close s fh).alloc_table = s.alloc_table ∧
    (close s fh).e_alloc = s.e_alloc ∧
    (close s fh).e_meta = s.e_meta ∧
    Msg.cannotLink fh.filename fh.first_block ∈ (close s fh).log ∧
    Msg.relinkInvalidBlock fh.last_block ∈ (close s fh).log := by
  have hc : close s fh =
      fsDebug 1 (relink (fsDebug 2 (link (fsDebug 1 s (Msg.finalising fh.filename)) fh)
        (Msg.markingEnd fh.filename)) fh.last_block NULL_PTR)
        (Msg.finalised fh.filename) := by
    unfold close close_commit
    dsimp only
    rw [if_neg (by simp [h1])]
  have hl : link (fsDebug 1 s (Msg.finalising fh.filename)) fh =
      fsError (fsDebug 1 s (Msg.finalising fh.filename))
        (Msg.cannotLink fh.filename fh.first_block) := by
    unfold link
    rw [if_neg (by rw [h2]; decide)]
  have hr : ∀ t : FS, relink t fh.last_block NULL_PTR =
      fsError t (Msg.relinkInvalidBlock fh.last_block) := by
    intro t
    unfold relink
    rw [if_neg (by rw [h3]; decide)]
  rw [hc, hl, hr]
  refine ⟨by simp, by simp, by simp, by simp, ?_, ?_⟩
  · apply fsDebug_log_mem
    simp only [fsError_log]
    apply List.mem_cons_of_mem
    apply fsDebug_log_mem
    simp only [fsError_log]
    exact List.mem_cons_self _ _
  · apply fsDebug_log_mem
    simp only [fsError_log]
    exact List.mem_cons_self _ _

/-- C8.  After `format(FULL)` or `format(QUICK)`: every block `i` has
`next = i - 1` (block 0's next is the null sentinel and block
NUM_BLOCKS - 1 heads the free chain), FULL additionally zeroes every
payload, all MAX_FILES file entries are `{0, null}`, the sentinel entry
holds NUM_BLOCKS - 1, and the whole table plus the metadata header are
persisted. -/
theorem C8_format_postcondition (s : FS) (f : format_type_t)
    (hf : f = format_type_t.FORMAT_FULL ∨ f = format_type_t.FORMAT_QUICK) :
    (∀ i : Nat, i < EEPROM_FS_NUM_BLOCKS →
        ((format_eepromfs s f).blocks i).next_block = (i : Int) - 1) ∧
    ((format_eepromfs s f).blocks 0).next_block = NULL_PTR ∧
    (f = format_type_t.FORMAT_FULL → ∀ i : Nat, i < EEPROM_FS_NUM_BLOCKS →
        ((format_eepromfs s f).blocks i).data = List.replicate EEPROM_FS_BLOCK_DATA_SIZE 0) ∧
    (∀ g : Nat, g < EEPROM_FS_MAX_FILES →
        (format_eepromfs s f).alloc_table g = { filesize := 0, data_block := NULL_PTR }) ∧
    ((format_eepromfs s f).alloc_table EEPROM_FS_MAX_FILES).data_block
        = (EEPROM_FS_NUM_BLOCKS : Int) - 1 ∧
    (∀ g : Nat, g ≤ EEPROM_FS_MAX_FILES →
        (format_eepromfs s f).e_alloc g = (format_eepromfs s f).alloc_table g) ∧
    (format_eepromfs s f).e_meta = this_meta := by
  have hw : f ≠ format_type_t.FORMAT_WIPE := by
    rcases hf with h | h <;> subst h <;> decide
  refine ⟨?_, ?_, ?_, ?_, ?_, ?_, format_e_meta_eq s f⟩
  · intro i hi
    rw [format_blocks_eq s f hw i hi]
  · rw [format_blocks_eq s f hw 0 (by rw [NUMB_eq]; omega)]
    show ((0 : Nat) : Int) - 1 = NULL_PTR
    decide
  · intro hfull i hi
    rw [format_blocks_eq s f hw i hi]
    simp [hfull]
  · intro g hg
    rw [format_alloc_eq, if_neg (by omega), if_pos hg]
  · rw [format_alloc_eq, if_pos rfl]
  · intro g hg
    exact format_e_alloc_eq s f g hg

/-- Witness for C8 at the blank state and FORMAT_FULL. -/
theorem C8_format_postcondition_witness :
    (format_type_t.FORMAT_FULL = format_type_t.FORMAT_FULL ∨
      format_type_t.FORMAT_FULL = format_type_t.FORMAT_QUICK) ∧
    ((∀ i : Nat, i < EEPROM_FS_NUM_BLOCKS →
        ((format_eepromfs init_state format_type_t.FORMAT_FULL).blocks i).next_block
          = (i : Int) - 1) ∧
    ((format_eepromfs init_state format_type_t.FORMAT_FULL).blocks 0).next_block = NULL_PTR ∧
    (format_type_t.FORMAT_FULL = format_type_t.FORMAT_FULL →
      ∀ i : Nat, i < EEPROM_FS_NUM_BLOCKS →
        ((format_eepromfs init_state format_type_t.FORMAT_FULL).blocks i).data
          = List.replicate EEPROM_FS_BLOCK_DATA_SIZE 0) ∧
    (∀ g : Nat, g < EEPROM_FS_MAX_FILES →
        (format_eepromfs init_state format_type_t.FORMAT_FULL).alloc_table g
          = { filesize := 0, data_block := NULL_PTR }) ∧
    ((format_eepromfs init_state format_type_t.FORMAT_FULL).alloc_table
        EEPROM_FS_MAX_FILES).data_block = (EEPROM_FS_NUM_BLOCKS : Int) - 1 ∧
    (∀ g : Nat, g ≤ EEPROM_FS_MAX_FILES →
        (format_eepromfs init_state format_type_t.FORMAT_FULL).e_alloc g
          = (format_eepromfs init_state format_type_t.FORMAT_FULL).alloc_table g) ∧
    (format_eepromfs init_state format_type_t.FORMAT_FULL).e_meta = this_meta) :=
  ⟨Or.inl rfl, C8_format_postcondition init_state format_type_t.FORMAT_FULL (Or.inl rfl)⟩

/-- Witness for C10: the fresh WRITE handle produced by `open_for_write`
on a formatted filesystem is closed immediately. -/
theorem C10_close_empty_write_witness :
    ((open_for_write fs0 6).2.type = handle_type.FH_WRITE ∧
     (open_for_write fs0 6).2.first_block = NULL_PTR ∧
     (open_for_write fs0 6).2.last_block = NULL_PTR) ∧
    ((close fs0 (open_for_write fs0 6).2).blocks = fs0.blocks ∧
     (close fs0 (open_for_write fs0 6).2).alloc_table = fs0.alloc_table ∧
     (close fs0 (open_for_write fs0 6).2).e_alloc = fs0.e_alloc ∧
     (close fs0 (open_for_write fs0 6).2).e_meta = fs0.e_meta ∧
     Msg.cannotLink (open_for_write fs0 6).2.filename (open_for_write fs0 6).2.first_block
       ∈ (close fs0 (open_for_write fs0 6).2).log ∧
     Msg.relinkInvalidBlock (open_for_write fs0 6).2.last_block
       ∈ (close fs0 (open_for_write fs0 6).2).log) :=
  ⟨⟨by decide, by decide, by decide⟩,
   C10_close_empty_write fs0 (open_for_write fs0 6).2 (by decide) (by decide) (by decide)⟩

lemma open_for_write_fst_sameCore (s : FS) (n : Nat) :
    sameCore (open_for_write s n).1 s := by
  unfold open_for_write
  split
  · exact sameCore_trans (fsDebug_sameCore _ _ _)
      (sameCore_trans (fsDebug_sameCore _ _ _) (fsDebug_sameCore _ _ _))
  · exact sameCore_trans (fsDebug_sameCore _ _ _) (fsDebug_sameCore _ _ _)

lemma open_for_append_fst_sameCore (s : FS) (n : Nat) :
    sameCore (open_for_append s n).1 s := by
  unfold open_for_append
  split
  · exact sameCore_trans (fsDebug_sameCore _ _ _)
      (sameCore_trans (fsDebug_sameCore _ _ _) (fsDebug_sameCore _ _ _))
  · exact sameCore_trans (fsDebug_sameCore _ _ _) (fsDebug_sameCore _ _ _)

lemma open_for_read_fst_sameCore (s : FS) (n : Nat) :
    sameCore (open_for_read s n).1 s := by
  unfold open_for_read
  split
  all_goals dsimp only
  all_goals split
  · exact sameCore_trans (fsError_sameCore _ _)
      (sameCore_trans (fsDebug_sameCore _ _ _) (fsDebug_sameCore _ _ _))
  · exact sameCore_trans (fsDebug_sameCore _ _ _)
      (sameCore_trans (fsDebug_sameCore _ _ _) (fsDebug_sameCore _ _ _))
  · exact sameCore_trans (fsError_sameCore _ _) (fsDebug_sameCore _ _ _)
  · exact sameCore_trans (fsDebug_sameCore _ _ _) (fsDebug_sameCore _ _ _)

/-- C9.  Debug-level noninterference: for every API operation and every
pair of debug levels installed through `set_debug`, the two runs agree on
everything except stderr — same returned or updated handle, same read
buffer, same RAM allocation table, same persisted table, same block
contents and metadata (`sameCore`); the level only gates log messages. -/
theorem C9_debug_noninterference (s : FS) (d1 d2 : Nat) (f : format_type_t)
    (n : Nat) (fh : file_handle_t) (data : List Nat) (sz : Nat) (buf : Nat → Nat) :
    sameCore (format_eepromfs (set_debug s d1) f) (format_eepromfs (set_debug s d2) f) ∧
    (sameCore (open_for_write (set_debug s d1) n).1 (open_for_write (set_debug s d2) n).1 ∧
      (open_for_write (set_debug s d1) n).2 = (open_for_write (set_debug s d2) n).2) ∧
    (sameCore (open_for_append (set_debug s d1) n).1 (open_for_append (set_debug s d2) n).1 ∧
      (open_for_append (set_debug s d1) n).2 = (open_for_append (set_debug s d2) n).2) ∧
    (sameCore (open_for_read (set_debug s d1) n).1 (open_for_read (set_debug s d2) n).1 ∧
      (open_for_read (set_debug s d1) n).2 = (open_for_read (set_debug s d2) n).2) ∧
    (sameCore (write (set_debug s d1) fh data sz).1 (write (set_debug s d2) fh data sz).1 ∧
      (write (set_debug s d1) fh data sz).2 = (write (set_debug s d2) fh data sz).2) ∧
    (sameCore (read (set_debug s d1) fh buf).1 (read (set_debug s d2) fh buf).1 ∧
      (read (set_debug s d1) fh buf).2 = (read (set_debug s d2) fh buf).2) ∧
    sameCore (close (set_debug s d1) fh) (close (set_debug s d2) fh) ∧
    sameCore (delete (set_debug s d1) n) (delete (set_debug s d2) n) := by
  have hsd : sameCore (set_debug s d1) (set_debug s d2) :=
    sameCore_trans (set_debug_sameCore s d1) (sameCore_symm (set_debug_sameCore s d2))
  exact ⟨format_congr hsd f, open_for_write_congr hsd n, open_for_append_congr hsd n,
    open_for_read_congr hsd n, write_congr hsd fh data sz, read_congr hsd fh buf,
    close_congr hsd fh, delete_congr hsd n⟩

/-- C5 amended.  For every external name `n` other than `MAX_FILES`
itself, `open_for_write`, `open_for_append`, `open_for_read` and `delete`
behave as if invoked with `n % MAX_FILES`: the returned handle is
identical and the filesystem contents agree on everything except log
messages.  (For `n = MAX_FILES` the fold does not apply — the C tests
`filename > EEPROM_FS_MAX_FILES` strictly — and the open operations
address the free-chain sentinel entry, see the counterexample.) -/
theorem C5_name_folding_amended (s : FS) (n : Nat) (h : n ≠ EEPROM_FS_MAX_FILES) :
    ((open_for_write s n).2 = (open_for_write s (n % EEPROM_FS_MAX_FILES)).2 ∧
      sameCore (open_for_write s n).1 (open_for_write s (n % EEPROM_FS_MAX_FILES)).1) ∧
    ((open_for_append s n).2 = (open_for_append s (n % EEPROM_FS_MAX_FILES)).2 ∧
      sameCore (open_for_append s n).1 (open_for_append s (n % EEPROM_FS_MAX_FILES)).1) ∧
    ((open_for_read s n).2 = (open_for_read s (n % EEPROM_FS_MAX_FILES)).2 ∧
      sameCore (open_for_read s n).1 (open_for_read s (n % EEPROM_FS_MAX_FILES)).1) ∧
    sameCore (delete s n) (delete s (n % EEPROM_FS_MAX_FILES)) := by
  have h29 : (0 : Nat) < EEPROM_FS_MAX_FILES := by rw [MAXF_eq]; omega
  by_cases hgt : n > EEPROM_FS_MAX_FILES
  · have hlt : n % EEPROM_FS_MAX_FILES < EEPROM_FS_MAX_FILES := Nat.mod_lt n h29
    have hn2 : ¬ (n % EEPROM_FS_MAX_FILES > EEPROM_FS_MAX_FILES) := by omega
    refine ⟨?_, ?_, ?_, ?_⟩
    · refine ⟨?_, sameCore_trans (open_for_write_fst_sameCore s n)
        (sameCore_symm (open_for_write_fst_sameCore s (n % EEPROM_FS_MAX_FILES)))⟩
      unfold open_for_write
      simp only [if_pos hgt, if_neg hn2]
    · refine ⟨?_, sameCore_trans (open_for_append_fst_sameCore s n)
        (sameCore_symm (open_for_append_fst_sameCore s (n % EEPROM_FS_MAX_FILES)))⟩
      unfold open_for_append
      simp only [if_pos hgt, if_neg hn2, fsDebug_alloc]
    · refine ⟨?_, sameCore_trans (open_for_read_fst_sameCore s n)
        (sameCore_symm (open_for_read_fst_sameCore s (n % EEPROM_FS_MAX_FILES)))⟩
      unfold open_for_read
      simp only [if_pos hgt, if_neg hn2, fsDebug_alloc]
      split_ifs <;> rfl
    · unfold delete
      simp only [if_pos hgt, if_neg hn2, fsDebug_alloc]
      have hb : sameCore (fsDebug 2 (fsDebug 1 s (Msg.deleting n))
          (Msg.filenameTruncated (n % EEPROM_FS_MAX_FILES)))
          (fsDebug 1 s (Msg.deleting (n % EEPROM_FS_MAX_FILES))) :=
        sameCore_trans (fsDebug_sameCore _ _ _)
          (sameCore_trans (fsDebug_sameCore _ _ _)
            (sameCore_symm (fsDebug_sameCore _ _ _)))
      exact fsDebug_congr (setEAllocTable_congr (setAlloc_congr (unlink_congr hb _) _ _) _ _)
        1 _ _
  · have hm : n % EEPROM_FS_MAX_FILES = n := Nat.mod_eq_of_lt (by omega)
    rw [hm]
    exact ⟨⟨rfl, sameCore_refl _⟩, ⟨rfl, sameCore_refl _⟩, ⟨rfl, sameCore_refl _⟩,
      sameCore_refl _⟩

/-- Witness for C5 amended at name 1337 on a formatted filesystem
(1337 folds to 1337 % 29 = 3). -/
theorem C5_name_folding_witness :
    (1337 : Nat) ≠ EEPROM_FS_MAX_FILES ∧
    (((open_for_write fs0 1337).2 = (open_for_write fs0 (1337 % EEPROM_FS_MAX_FILES)).2 ∧
      sameCore (open_for_write fs0 1337).1
        (open_for_write fs0 (1337 % EEPROM_FS_MAX_FILES)).1) ∧
    ((open_for_append fs0 1337).2 = (open_for_append fs0 (1337 % EEPROM_FS_MAX_FILES)).2 ∧
      sameCore (open_for_append fs0 1337).1
        (open_for_append fs0 (1337 % EEPROM_FS_MAX_FILES)).1) ∧
    ((open_for_read fs0 1337).2 = (open_for_read fs0 (1337 % EEPROM_FS_MAX_FILES)).2 ∧
      sameCore (open_for_read fs0 1337).1
        (open_for_read fs0 (1337 % EEPROM_FS_MAX_FILES)).1) ∧
    sameCore (delete fs0 1337) (delete fs0 (1337 % EEPROM_FS_MAX_FILES))) :=
  ⟨by decide, C5_name_folding_amended fs0 1337 (by decide)⟩

lemma getBlock_in (s : FS) (m : Nat) (hm : m < 59) :
    getBlock s ((m : Nat) : Int) = s.blocks m := by
  unfold getBlock
  have hc : (0 : Int) ≤ (m : Int) ∧ (m : Int) < ((EEPROM_FS_NUM_BLOCKS : Nat) : Int) := by
    rw [NUMBI_eq]; omega
  rw [if_pos hc]
  simp

lemma setBlockNext_blocks_in (s : FS) (b t : Int)
    (hb : 0 ≤ b ∧ b < ((EEPROM_FS_NUM_BLOCKS : Nat) : Int)) (x : Nat) :
    (setBlockNext s b t).blocks x =
      if x = b.toNat then { next_block := t, data := (s.blocks x).data } else s.blocks x := by
  unfold setBlockNext
  rw [if_pos hb]

lemma link_blocks (s : FS) (fh : file_handle_t) : (link s fh).blocks = s.blocks := by
  unfold link
  split <;> simp

/-- Pointwise value of the `read` loop on a descending chain of `nb0`
blocks ending at the null sentinel whose payloads carry `p` (blocks
`m0, m0-1, …`): bytes below `filesize` come from `p`, all others keep
their previous buffer value. -/
lemma readLoop_spec (B : Nat → block_t) (p : List Nat) (size m0 nb0 : Nat)
    (hnb0 : nb0 = size / 30 + 1) (hm0 : m0 < 59) (hnbm : nb0 ≤ m0 + 1)
    (hnext : ∀ t, t < nb0 → (B (m0 - t)).next_block =
      if t = nb0 - 1 then NULL_PTR else ((m0 - t : Nat) : Int) - 1)
    (hdata : ∀ t, t < nb0 → ∀ j, j < 30 → j < size - t * 30 →
      (B (m0 - t)).data.getD j 0 = p.getD (t * 30 + j) 0) :
    ∀ (r : Nat), ∀ (fuel : Nat) (T : FS) (i nbv : Nat) (buf : Nat → Nat),
      T.blocks = B → i + r = nb0 → 1 ≤ r → r ≤ fuel →
      (i < size / 30 → nbv = 30) →
      ∀ x, (readLoop fuel T ((m0 - i : Nat) : Int) i nbv size buf).2 x =
        if i * 30 ≤ x ∧ x < size then p.getD x 0 else buf x := by
  intro r
  induction r with
  | zero => intro fuel T i nbv buf hTB hir h1r hrf hnbv; omega
  | succ r ih =>
    intro fuel T i nbv buf hTB hir h1r hrf hnbv x
    obtain ⟨f, rfl⟩ : ∃ f, fuel = f + 1 := ⟨fuel - 1, by omega⟩
    have hinb : i < nb0 := by omega
    simp only [readLoop]
    rw [show (EEPROM_FS_BLOCK_DATA_SIZE : Nat) = 30 from rfl]
    have hblk : getBlock (fsDebug 3 T (Msg.readingBlock ((m0 - i : Nat) : Int)))
        ((m0 - i : Nat) : Int) = B (m0 - i) := by
      rw [getBlock_congr (fsDebug_blocks 3 T (Msg.readingBlock _)),
        getBlock_in T (m0 - i) (by omega), hTB]
    rw [hblk, hnext i hinb]
    rcases Nat.lt_or_ge i (nb0 - 1) with hlt | hge
    · rw [if_neg (show ¬ i = nb0 - 1 by omega)]
      have hcond : ¬ ((i + 1) * 30 > size) := by omega
      rw [if_neg hcond]
      have h30 : nbv = 30 := hnbv (by omega)
      subst h30
      rw [if_pos (show ¬ (((m0 - i : Nat) : Int) - 1 = NULL_PTR) by rw [NP_eq]; omega)]
      rw [show ((m0 - i : Nat) : Int) - 1 = ((m0 - (i + 1) : Nat) : Int) from by omega]
      rw [ih f
        (copyBufLog (fsDebug 3 (fsDebug 3 T (Msg.readingBlock ((m0 - i : Nat) : Int)))
          Msg.doneMark) (B (m0 - i)).data (i * 30) 30)
        (i + 1) 30 (copyBufFun buf (B (m0 - i)).data (i * 30) 30)
        (by rw [(copyBufLog_sameCore _ _ _ _).1, fsDebug_blocks, fsDebug_blocks, hTB])
        (by omega) (by omega) (by omega) (fun _ => rfl) x]
      rw [copyBufFun_eq buf (B (m0 - i)).data (i * 30) 30 x]
      by_cases hx1 : (i + 1) * 30 ≤ x ∧ x < size
      · rw [if_pos hx1, if_pos (by omega)]
      · rw [if_neg hx1]
        by_cases hx2 : i * 30 ≤ x ∧ x < i * 30 + 30
        · rw [if_pos hx2, if_pos (by omega)]
          rw [hdata i hinb (x - i * 30) (by omega) (by omega)]
          congr 1
          omega
        · rw [if_neg hx2, if_neg (by omega)]
    · have hieq : i = nb0 - 1 := by omega
      have hisz : i = size / 30 := by omega
      rw [if_pos hieq]
      have hgt : (i + 1) * 30 > size := by omega
      rw [if_pos hgt]
      rw [if_neg (show ¬ ¬ (NULL_PTR = NULL_PTR) from not_not_intro rfl)]
      show copyBufFun buf (B (m0 - i)).data (i * 30) (size % 30) x = _
      rw [copyBufFun_eq buf (B (m0 - i)).data (i * 30) (size % 30) x]
      by_cases hx : i * 30 ≤ x ∧ x < size
      · rw [if_pos (by omega), if_pos hx]
        rw [hdata i hinb (x - i * 30) (by omega) (by omega)]
        congr 1
        omega
      · rw [if_neg (by omega), if_neg hx]

/-- Length of a descending null-terminated chain. -/
lemma chainLen_desc (S : FS) (m0 nb0 : Nat) (hm0 : m0 < 59) (hle : nb0 ≤ m0 + 1)
    (hnext : ∀ t, t < nb0 → (S.blocks (m0 - t)).next_block =
      if t = nb0 - 1 then NULL_PTR else ((m0 - t : Nat) : Int) - 1) :
    ∀ r, ∀ (fuel : Nat) (i : Nat), i + r = nb0 → 1 ≤ r → r ≤ fuel →
      chainLen fuel S ((m0 - i : Nat) : Int) = r := by
  intro r
  induction r with
  | zero => intro fuel i h1 h2 h3; omega
  | succ r ih =>
    intro fuel i h1 h2 h3
    obtain ⟨f, rfl⟩ : ∃ f, fuel = f + 1 := ⟨fuel - 1, by omega⟩
    have hinb : i < nb0 := by omega
    simp only [chainLen]
    rw [if_pos (show (0 : Int) ≤ ((m0 - i : Nat) : Int) ∧
      ((m0 - i : Nat) : Int) < ((EEPROM_FS_NUM_BLOCKS : Nat) : Int) by rw [NUMBI_eq]; omega)]
    rw [getBlock_in S (m0 - i) (by omega), hnext i hinb]
    rcases Nat.lt_or_ge i (nb0 - 1) with hlt | hge
    · rw [if_neg (show ¬ i = nb0 - 1 by omega)]
      rw [if_neg (show ¬ (((m0 - i : Nat) : Int) - 1 = NULL_PTR) by rw [NP_eq]; omega)]
      rw [show ((m0 - i : Nat) : Int) - 1 = ((m0 - (i + 1) : Nat) : Int) from by omega]
      rw [ih f (i + 1) (by omega) (by omega) (by omega)]
      omega
    · rw [if_pos (show i = nb0 - 1 by omega), if_pos rfl]
      omega

/-- What `write` does to a fresh WRITE handle on a filesystem whose
target entry is empty and whose free chain descends from block 58: it
fills blocks `58, 57, …` with the payload (split every 30 bytes), leaves
every file entry alone, and returns a handle recording first block 58,
last block `59 - (|p|/30 + 1)` and the untruncated size. -/
structure WriteFreshOut (name : Nat) (p : List Nat) (s sOut : FS)
    (fhOut : file_handle_t) : Prop where
  halloc : ∀ g, g ≠ 29 → sOut.alloc_table g = s.alloc_table g
  hea : sOut.e_alloc = s.e_alloc
  hem : sOut.e_meta = s.e_meta
  hfname : fhOut.filename = name
  hfsize : fhOut.filesize = p.length
  htype : fhOut.type = handle_type.FH_WRITE
  hfirst : fhOut.first_block = ((58 : Nat) : Int)
  hlast : fhOut.last_block = ((59 - (p.length / 30 + 1) : Nat) : Int)
  huntouched : ∀ b : Nat, b + (p.length / 30 + 1) ≤ 58 ∨ 58 < b → sOut.blocks b = s.blocks b
  hnexts : ∀ t, t < p.length / 30 + 1 →
    (sOut.blocks (58 - t)).next_block = ((58 - t : Nat) : Int) - 1
  hdatas : ∀ t, t < p.length / 30 + 1 → ∀ j, j < 30 → j < p.length - t * 30 →
    (sOut.blocks (58 - t)).data.getD j 0 = p.getD (t * 30 + j) 0

lemma write_fresh_spec (s : FS) (name : Nat) (p : List Nat)
    (_h1 : name < 29) (h2 : p.length ≤ 240)
    (halloc0 : (s.alloc_table name).filesize = 0)
    (hsent : s.alloc_table EEPROM_FS_MAX_FILES = { filesize := 0, data_block := (58 : Int) })
    (hchain : ∀ t, t < 59 → (s.blocks t).next_block = (t : Int) - 1) :
    WriteFreshOut name p s
      (write s
        { filename := name, filesize := 0, type := handle_type.FH_WRITE,
          first_block := NULL_PTR, last_block := NULL_PTR } p p.length).1
      (write s
        { filename := name, filesize := 0, type := handle_type.FH_WRITE,
          first_block := NULL_PTR, last_block := NULL_PTR } p p.length).2 := by
  have hmerge : write_merge s
      { filename := name, filesize := 0, type := handle_type.FH_WRITE,
        first_block := NULL_PTR, last_block := NULL_PTR }
      p p.length = (s, p, p.length) := by
    unfold write_merge
    rw [if_neg]
    rintro ⟨hc, -⟩
    simp at hc
  have hcap : write_capacity (fsDebug 1 s (Msg.writingBytes p.length name))
      { filename := name, filesize := 0, type := handle_type.FH_WRITE,
        first_block := NULL_PTR, last_block := NULL_PTR } p.length =
      (fsDebug 1 s (Msg.writingBytes p.length name), p.length / 30 + 1) := by
    unfold write_capacity
    rw [show (EEPROM_FS_BLOCK_DATA_SIZE : Nat) = 30 from rfl]
    dsimp only
    rw [fsDebug_alloc, halloc0]
    rw [if_neg (by rw [MAXB_eq]; omega)]
  have hnf : (fsDebug 1 s (Msg.writingBytes p.length name)).next_free =
      ((58 : Nat) : Int) := by
    rw [next_free_eq, fsDebug_alloc, hsent]
    rfl
  have W := writeLoop_spec p p.length (p.length / 30 + 1)
    (fsDebug 1 s (Msg.writingBytes p.length name))
    { filename := name, filesize := 0, type := handle_type.FH_WRITE,
      first_block := (fsDebug 1 s (Msg.writingBytes p.length name)).next_free,
      last_block := NULL_PTR }
    (List.replicate 30 0) 30 0 58
    hnf (by omega) (by omega) (by omega) (fun _ => rfl)
    (by
      intro t ht
      rw [fsDebug_blocks]
      exact hchain (58 - t) (by omega))
    (by simp)
  have heq : write s
      { filename := name, filesize := 0, type := handle_type.FH_WRITE,
        first_block := NULL_PTR, last_block := NULL_PTR } p p.length =
    (fsDebug 1 (writeLoop (p.length / 30 + 1) (fsDebug 1 s (Msg.writingBytes p.length name))
        { filename := name, filesize := 0, type := handle_type.FH_WRITE,
          first_block := (fsDebug 1 s (Msg.writingBytes p.length name)).next_free,
          last_block := NULL_PTR } p (List.replicate 30 0) 0 30 p.length).1
      (Msg.fileWritten (writeLoop (p.length / 30 + 1)
        (fsDebug 1 s (Msg.writingBytes p.length name))
        { filename := name, filesize := 0, type := handle_type.FH_WRITE,
          first_block := (fsDebug 1 s (Msg.writingBytes p.length name)).next_free,
          last_block := NULL_PTR } p (List.replicate 30 0) 0 30 p.length).2.1.filename),
     { (writeLoop (p.length / 30 + 1) (fsDebug 1 s (Msg.writingBytes p.length name))
        { filename := name, filesize := 0, type := handle_type.FH_WRITE,
          first_block := (fsDebug 1 s (Msg.writingBytes p.length name)).next_free,
          last_block := NULL_PTR } p (List.replicate 30 0) 0 30 p.length).2.1
       with filesize := p.length }) := by
    unfold write
    rw [if_pos (Or.inl rfl)]
    dsimp only
    rw [hmerge]
    dsimp only
    rw [hcap]
    dsimp only
    rw [show (EEPROM_FS_BLOCK_DATA_SIZE : Nat) = 30 from rfl]
    rw [if_pos (show p.length / 30 + 1 > 0 by omega)]
    rw [if_neg (show ¬ (p.length > (p.length / 30 + 1) * 30) by omega)]
  rw [heq]
  refine {
    halloc := fun g hg => by
      rw [fsDebug_alloc, W.alloc_eq g hg, fsDebug_alloc]
    hea := by rw [fsDebug_e_alloc, W.ealloc, fsDebug_e_alloc]
    hem := by rw [fsDebug_e_meta, W.emeta, fsDebug_e_meta]
    hfname := by dsimp only; rw [W.fname]
    hfsize := by dsimp only
    htype := by dsimp only; rw [W.ftype]
    hfirst := by dsimp only; rw [W.firstb]; exact hnf
    hlast := by
      dsimp only
      rw [W.lastb (by omega)]
    huntouched := fun b hb => by
      rw [fsDebug_blocks, W.untouched b hb, fsDebug_blocks]
    hnexts := fun t ht => by
      rw [fsDebug_blocks]
      exact W.nexts t ht
    hdatas := fun t ht j hj1 hj2 => by
      rw [fsDebug_blocks]
      have h := W.datas t ht j hj1 (by omega)
      rw [Nat.zero_add] at h
      exact h }

/-- What `close` does to a committed WRITE handle with in-range first and
last blocks: the allocation entry of the folded name gets the handle's
size and first block, no other entry moves, and the only block touched is
the last one, whose `next` becomes the null sentinel. -/
lemma close_write_spec (s : FS) (fh : file_handle_t)
    (htype : fh.type = handle_type.FH_WRITE)
    (hfirst : 0 ≤ fh.first_block ∧ fh.first_block < 59)
    (hlast : 0 ≤ fh.last_block ∧ fh.last_block < 59) :
    (close s fh).alloc_table (fh.filename % EEPROM_FS_MAX_FILES) =
      { filesize := fh.filesize, data_block := fh.first_block } ∧
    (∀ g, g ≠ fh.filename % EEPROM_FS_MAX_FILES →
      (close s fh).alloc_table g = s.alloc_table g) ∧
    (∀ b : Nat, ((b : Nat) : Int) ≠ fh.last_block → (close s fh).blocks b = s.blocks b) ∧
    (close s fh).blocks fh.last_block.toNat =
      { next_block := NULL_PTR, data := (s.blocks fh.last_block.toNat).data } := by
  have hni : ¬ fh.type = handle_type.FH_APPEND := by rw [htype]; decide
  have hrange : 0 ≤ fh.first_block ∧
      fh.first_block < ((EEPROM_FS_NUM_BLOCKS : Nat) : Int) := by
    rw [NUMBI_eq]; exact hfirst
  have hbr : 0 ≤ fh.last_block ∧ fh.last_block < ((EEPROM_FS_NUM_BLOCKS : Nat) : Int) := by
    rw [NUMBI_eq]; exact hlast
  have htr : NULL_PTR ≤ NULL_PTR ∧ NULL_PTR < ((EEPROM_FS_NUM_BLOCKS : Nat) : Int) := by
    rw [NP_eq, NUMBI_eq]; omega
  have hlinkalloc : ∀ g,
      (link (fsDebug 1 s (Msg.finalising fh.filename)) fh).alloc_table g =
      if g = fh.filename % EEPROM_FS_MAX_FILES then
        { filesize := fh.filesize, data_block := fh.first_block }
      else s.alloc_table g := by
    intro g
    unfold link
    rw [if_pos hrange]
    simp only [fsDebug_alloc, setEAlloc_alloc]
    rw [setAlloc_alloc]
    simp only [fsDebug_alloc]
  unfold close close_commit
  dsimp only
  rw [if_neg hni]
  dsimp only
  have hrelb : ∀ x : Nat,
      (relink (fsDebug 2 (link (fsDebug 1 s (Msg.finalising fh.filename)) fh)
        (Msg.markingEnd fh.filename)) fh.last_block NULL_PTR).blocks x =
      if x = fh.last_block.toNat then
        { next_block := NULL_PTR, data := (s.blocks x).data }
      else s.blocks x := by
    intro x
    rw [relink_ok _ _ _ hbr htr]
    simp only [fsDebug_blocks]
    rw [setBlockNext_blocks_in _ _ _ hbr x]
    simp only [fsDebug_blocks, link_blocks]
  refine ⟨?_, ?_, ?_, ?_⟩
  · rw [fsDebug_alloc, relink_alloc, fsDebug_alloc, hlinkalloc, if_pos rfl]
  · intro g hg
    rw [fsDebug_alloc, relink_alloc, fsDebug_alloc, hlinkalloc, if_neg hg]
  · intro b hb
    rw [fsDebug_blocks, hrelb b, if_neg]
    intro h
    apply hb
    rw [h, Int.toNat_of_nonneg hlast.1]
  · rw [fsDebug_blocks, hrelb fh.last_block.toNat, if_pos rfl]

/-- The shape of the committed file: allocation entry `{|p|, 58}` and a
descending chain `58, 57, …, 59 - (|p|/30 + 1)` terminated by the null
sentinel, whose payload bytes below `|p|` are the bytes of `p`. -/
structure RtSpec (name : Nat) (p : List Nat) (S : FS) : Prop where
  alloc_name : S.alloc_table name =
    { filesize := p.length, data_block := ((58 : Nat) : Int) }
  nexts : ∀ t, t < p.length / 30 + 1 →
    (S.blocks (58 - t)).next_block =
      if t = p.length / 30 then NULL_PTR else ((58 - t : Nat) : Int) - 1
  datas : ∀ t, t < p.length / 30 + 1 → ∀ j, j < 30 → j < p.length - t * 30 →
    (S.blocks (58 - t)).data.getD j 0 = p.getD (t * 30 + j) 0

lemma rtWritten_spec (name : Nat) (p : List Nat)
    (h1 : name < 29) (h2 : p.length ≤ 240) :
    RtSpec name p (rtWritten name p) := by
  have hfh0 : (open_for_write fs0 name).2 =
      { filename := name, filesize := 0, type := handle_type.FH_WRITE,
        first_block := NULL_PTR, last_block := NULL_PTR } := by
    unfold open_for_write
    dsimp only
    rw [if_neg (show ¬ name > EEPROM_FS_MAX_FILES by rw [MAXF_eq]; omega)]
  have hsc0 := open_for_write_fst_sameCore fs0 name
  have WF := write_fresh_spec (open_for_write fs0 name).1 name p h1 h2
    (by rw [hsc0.2.1, fs0_alloc_file name (by rw [MAXF_eq]; omega)])
    (by
      rw [hsc0.2.1, fs0_alloc_sentinel]
      decide)
    (by
      intro t ht
      rw [hsc0.1, fs0_blocks t (by rw [NUMB_eq]; omega)])
  have CW := close_write_spec
    (write (open_for_write fs0 name).1
      { filename := name, filesize := 0, type := handle_type.FH_WRITE,
        first_block := NULL_PTR, last_block := NULL_PTR } p p.length).1
    (write (open_for_write fs0 name).1
      { filename := name, filesize := 0, type := handle_type.FH_WRITE,
        first_block := NULL_PTR, last_block := NULL_PTR } p p.length).2
    WF.htype
    (by rw [WF.hfirst]; omega)
    (by rw [WF.hlast]; omega)
  obtain ⟨hA, hB, hC, hD⟩ := CW
  rw [WF.hfname] at hA hB
  rw [Nat.mod_eq_of_lt (show name < EEPROM_FS_MAX_FILES by rw [MAXF_eq]; omega)] at hA hB
  rw [WF.hfsize, WF.hfirst] at hA
  rw [WF.hlast, Int.toNat_natCast] at hD
  simp only [rtWritten]
  rw [hfh0]
  refine {
    alloc_name := hA
    nexts := fun t ht => by
      by_cases hteq : t = p.length / 30
      · rw [show (58 : Nat) - t = 59 - (p.length / 30 + 1) from by omega, hD]
        rw [if_pos hteq]
      · rw [hC (58 - t) (by rw [WF.hlast]; omega)]
        rw [WF.hnexts t ht, if_neg hteq]
    datas := fun t ht j hj1 hj2 => by
      by_cases hteq : t = p.length / 30
      · rw [show (58 : Nat) - t = 59 - (p.length / 30 + 1) from by omega, hD]
        have h := WF.hdatas t ht j hj1 hj2
        rw [show (58 : Nat) - t = 59 - (p.length / 30 + 1) from by omega] at h
        exact h
      · rw [hC (58 - t) (by rw [WF.hlast]; omega)]
        exact WF.hdatas t ht j hj1 hj2 }

lemma rtRead_fh (name : Nat) (p : List Nat)
    (h1 : name < 29) (h2 : p.length ≤ 240) :
    (rtRead name p).2 =
      { filename := name, filesize := p.length, type := handle_type.FH_READ,
        first_block := ((58 : Nat) : Int), last_block := NULL_PTR } := by
  have hspec := rtWritten_spec name p h1 h2
  unfold rtRead open_for_read
  dsimp only
  rw [if_neg (show ¬ name > EEPROM_FS_MAX_FILES by rw [MAXF_eq]; omega)]
  dsimp only
  rw [fsDebug_alloc, hspec.alloc_name]
  split <;> rfl

lemma rtRead_blocks (name : Nat) (p : List Nat) :
    (rtRead name p).1.blocks = (rtWritten name p).blocks :=
  (open_for_read_fst_sameCore _ _).1

lemma rtBuf_val (name : Nat) (p : List Nat)
    (h1 : name < 29) (h2 : p.length ≤ 240) :
    ∀ x, x < p.length → rtBuf name p x = p.getD x 0 := by
  intro x hx
  have hfh := rtRead_fh name p h1 h2
  have hspec := rtWritten_spec name p h1 h2
  show (read (rtRead name p).1 (rtRead name p).2 (fun _ => 0)).2 x = _
  unfold read
  rw [hfh]
  dsimp only
  rw [show (EEPROM_FS_BLOCK_DATA_SIZE : Nat) = 30 from rfl]
  rw [if_pos (show (0 : Int) ≤ ((58 : Nat) : Int) ∧
    ((58 : Nat) : Int) < ((EEPROM_FS_NUM_BLOCKS : Nat) : Int) by rw [NUMBI_eq]; omega)]
  have hrl := readLoop_spec (rtWritten name p).blocks p p.length 58 (p.length / 30 + 1)
    rfl (by omega) (by omega)
    (by
      intro t ht
      rw [hspec.nexts t ht, Nat.add_sub_cancel])
    hspec.datas
    (p.length / 30 + 1) (EEPROM_FS_NUM_BLOCKS + 1) (rtRead name p).1 0 30 (fun _ => 0)
    (rtRead_blocks name p) (by omega) (by omega) (by rw [NUMB_eq]; omega)
    (fun _ => rfl) x
  rw [Nat.sub_zero] at hrl
  rw [hrl, if_pos (by omega)]

/-- C1 (amended).  Round trip on a freshly formatted filesystem: for every
name below MAX_FILES and every payload of at most
MAX_BLOCKS_PER_FILE * BLOCK_DATA_SIZE bytes, `open_for_write`, a single
`write` of the whole payload, `close`, `open_for_read` and `read` deliver
a handle whose filesize is the payload length and a buffer whose first
`|p|` bytes are exactly the payload. -/
theorem C1_roundtrip (name : Nat) (p : List Nat)
    (h1 : name < EEPROM_FS_MAX_FILES)
    (h2 : p.length ≤ EEPROM_FS_MAX_BLOCKS_PER_FILE * EEPROM_FS_BLOCK_DATA_SIZE) :
    (rtRead name p).2.filesize = p.length ∧
    bufList (rtBuf name p) p.length = p := by
  rw [MAXF_eq] at h1
  rw [show EEPROM_FS_MAX_BLOCKS_PER_FILE * EEPROM_FS_BLOCK_DATA_SIZE = 240 from rfl] at h2
  refine ⟨by rw [rtRead_fh name p h1 h2], ?_⟩
  apply List.ext_getElem
  · simp [bufList]
  · intro k hk1 hk2
    simp only [bufList, List.getElem_map, List.getElem_range]
    rw [rtBuf_val name p h1 h2 k hk2]
    exact List.getD_eq_getElem p 0 hk2

/-- C1 witness: the concrete 14-byte payload `[7, 7, …]` written under
name 3 reads back unchanged with filesize 14. -/
theorem C1_roundtrip_witness :
    (3 : Nat) < EEPROM_FS_MAX_FILES ∧
    (List.replicate 14 7).length ≤
      EEPROM_FS_MAX_BLOCKS_PER_FILE * EEPROM_FS_BLOCK_DATA_SIZE ∧
    ((rtRead 3 (List.replicate 14 7)).2.filesize = (List.replicate 14 7).length ∧
     bufList (rtBuf 3 (List.replicate 14 7)) (List.replicate 14 7).length =
       List.replicate 14 7) :=
  ⟨by decide, by decide, C1_roundtrip 3 (List.replicate 14 7) (by decide) (by decide)⟩

/-- C6 (amended).  For a file committed by a single untruncated write of
payload `p` on a freshly formatted filesystem, the committed filesize is
`|p|` and the chain starting at the allocation entry's first block has
exactly `|p| / BLOCK_DATA_SIZE + 1` blocks, the last one holding the null
sentinel — one more than `ceil(|p| / BLOCK_DATA_SIZE)` whenever the size
is an exact multiple of BLOCK_DATA_SIZE. -/
theorem C6_size_length_amended (name : Nat) (p : List Nat)
    (h1 : name < EEPROM_FS_MAX_FILES)
    (h2 : p.length ≤ EEPROM_FS_MAX_BLOCKS_PER_FILE * EEPROM_FS_BLOCK_DATA_SIZE) :
    ((rtWritten name p).alloc_table name).filesize = p.length ∧
    chainLen (EEPROM_FS_NUM_BLOCKS + 1) (rtWritten name p)
      ((rtWritten name p).alloc_table name).data_block =
      p.length / EEPROM_FS_BLOCK_DATA_SIZE + 1 ∧
    ((rtWritten name p).blocks
      (58 - p.length / EEPROM_FS_BLOCK_DATA_SIZE)).next_block = NULL_PTR := by
  rw [MAXF_eq] at h1
  rw [show EEPROM_FS_MAX_BLOCKS_PER_FILE * EEPROM_FS_BLOCK_DATA_SIZE = 240 from rfl] at h2
  rw [show (EEPROM_FS_BLOCK_DATA_SIZE : Nat) = 30 from rfl]
  have hspec := rtWritten_spec name p h1 h2
  refine ⟨by rw [hspec.alloc_name], ?_, ?_⟩
  · rw [hspec.alloc_name]
    dsimp only
    have h := chainLen_desc (rtWritten name p) 58 (p.length / 30 + 1) (by omega) (by omega)
      (by intro t ht; rw [hspec.nexts t ht, Nat.add_sub_cancel])
      (p.length / 30 + 1) (EEPROM_FS_NUM_BLOCKS + 1) 0 (by omega) (by omega)
      (by rw [NUMB_eq]; omega)
    rw [Nat.sub_zero] at h
    exact h
  · have h := hspec.nexts (p.length / 30) (by omega)
    rw [if_pos rfl] at h
    exact h

/-- C6 witness: a 60-byte payload (an exact multiple of BLOCK_DATA_SIZE)
committed under name 4 occupies 60/30 + 1 = 3 blocks. -/
theorem C6_size_length_witness :
    (4 : Nat) < EEPROM_FS_MAX_FILES ∧
    (List.replicate 60 1).length ≤
      EEPROM_FS_MAX_BLOCKS_PER_FILE * EEPROM_FS_BLOCK_DATA_SIZE ∧
    (((rtWritten 4 (List.replicate 60 1)).alloc_table 4).filesize =
       (List.replicate 60 1).length ∧
     chainLen (EEPROM_FS_NUM_BLOCKS + 1) (rtWritten 4 (List.replicate 60 1))
       ((rtWritten 4 (List.replicate 60 1)).alloc_table 4).data_block =
       (List.replicate 60 1).length / EEPROM_FS_BLOCK_DATA_SIZE + 1 ∧
     ((rtWritten 4 (List.replicate 60 1)).blocks
       (58 - (List.replicate 60 1).length / EEPROM_FS_BLOCK_DATA_SIZE)).next_block =
       NULL_PTR) :=
  ⟨by decide, by decide,
    C6_size_length_amended 4 (List.replicate 60 1) (by decide) (by decide)⟩

/-- The free-chain walk stays inside the block region when every stored
`next` pointer is either the null sentinel or a valid block. -/
lemma lastChainLoop_in (B : Nat → block_t)
    (hnx : ∀ x : Nat, x < 59 → (B x).next_block = NULL_PTR ∨
      (0 ≤ (B x).next_block ∧ (B x).next_block < 59)) :
    ∀ (fuel : Nat) (s : FS) (b : Int), s.blocks = B → 0 ≤ b → b < 59 →
      0 ≤ (lastChainLoop fuel s b).2 ∧ (lastChainLoop fuel s b).2 < 59 := by
  intro fuel
  induction fuel with
  | zero => intro s b hB h0 h59; exact ⟨h0, h59⟩
  | succ fuel ih =>
    intro s b hB h0 h59
    simp only [lastChainLoop]
    have hbt : b = ((b.toNat : Nat) : Int) := (Int.toNat_of_nonneg h0).symm
    have hblk : getBlock (fsDebug 4 s (Msg.checkingBlock b)) b = B b.toNat := by
      conv_lhs => rw [hbt]
      rw [getBlock_in _ _ (by omega), fsDebug_blocks, hB]
    rw [hblk]
    by_cases hc : (B b.toNat).next_block = NULL_PTR
    · rw [if_neg (not_not_intro hc)]
      exact ⟨h0, h59⟩
    · rw [if_pos hc]
      rcases hnx b.toNat (by omega) with hnull | hrange
      · exact absurd hnull hc
      · exact ih (fsDebug 4 s (Msg.checkingBlock b)) (B b.toNat).next_block
          (by rw [fsDebug_blocks, hB]) hrange.1 hrange.2

lemma last_block_in_chain_in (s : FS) (b : Int)
    (hb : 0 ≤ b ∧ b < 59)
    (hnx : ∀ x : Nat, x < 59 → (s.blocks x).next_block = NULL_PTR ∨
      (0 ≤ (s.blocks x).next_block ∧ (s.blocks x).next_block < 59)) :
    0 ≤ (last_block_in_chain s b).2 ∧ (last_block_in_chain s b).2 < 59 := by
  unfold last_block_in_chain
  rw [if_pos (show 0 ≤ b ∧ b < ((EEPROM_FS_NUM_BLOCKS : Nat) : Int) by
    rw [NUMBI_eq]; exact hb)]
  dsimp only
  exact lastChainLoop_in s.blocks hnx (EEPROM_FS_NUM_BLOCKS + 1)
    (fsDebug 3 s Msg.searchingChain) b (fsDebug_blocks 3 s Msg.searchingChain) hb.1 hb.2

/-- On a filesystem whose cached free head is a valid block and whose
stored `next` pointers are null or valid, `unlink`'s tail write stays
inside the block region and the persisted table is untouched. -/
lemma unlink_e_alloc_wf (s : FS) (b : Int)
    (hnf : 0 ≤ s.next_free ∧ s.next_free < 59)
    (hnx : ∀ x : Nat, x < 59 → (s.blocks x).next_block = NULL_PTR ∨
      (0 ≤ (s.blocks x).next_block ∧ (s.blocks x).next_block < 59)) :
    (unlink s b).e_alloc = s.e_alloc := by
  unfold unlink
  split
  · have hhead : (fsDebug 1 s (Msg.unlinking b)).next_free = s.next_free := by
      rw [next_free_eq, fsDebug_alloc, next_free_eq]
    have hp := last_block_in_chain_in (fsDebug 1 s (Msg.unlinking b))
      (fsDebug 1 s (Msg.unlinking b)).next_free
      (by rw [hhead]; exact hnf)
      (by intro x hx; rw [fsDebug_blocks]; exact hnx x hx)
    simp only [fsDebug_e_alloc]
    rw [setBlockNext_e_alloc_in _ _ _ (by rw [NUMBI_eq]; exact hp)]
    exact ((last_block_in_chain_sameCore _ _).2.2.1).trans (by simp)
  · simp

lemma unlink_e_meta_wf (s : FS) (b : Int)
    (hnf : 0 ≤ s.next_free ∧ s.next_free < 59)
    (hnx : ∀ x : Nat, x < 59 → (s.blocks x).next_block = NULL_PTR ∨
      (0 ≤ (s.blocks x).next_block ∧ (s.blocks x).next_block < 59)) :
    (unlink s b).e_meta = s.e_meta := by
  unfold unlink
  split
  · have hhead : (fsDebug 1 s (Msg.unlinking b)).next_free = s.next_free := by
      rw [next_free_eq, fsDebug_alloc, next_free_eq]
    have hp := last_block_in_chain_in (fsDebug 1 s (Msg.unlinking b))
      (fsDebug 1 s (Msg.unlinking b)).next_free
      (by rw [hhead]; exact hnf)
      (by intro x hx; rw [fsDebug_blocks]; exact hnx x hx)
    simp only [fsDebug_e_meta]
    rw [setBlockNext_e_meta_in _ _ _ (by rw [NUMBI_eq]; exact hp)]
    exact ((last_block_in_chain_sameCore _ _).2.2.2).trans (by simp)
  · simp

/-- C7 counterexample.  In the reachable state where writes have
exhausted the free chain (the cached head is the null sentinel),
`delete 0` walks the free chain, `last_block_in_chain` fails, and the
2-byte tail write goes through `get_block_pointer(-1)` — EEPROM address
98, the `filesize` field of persisted allocation entry 22.  The deleted
chain's head (block 58) lands there, refuting the claim that only the
deleted name's entry changes. -/
theorem C7_delete_isolates_cex :
    c7CexState.next_free = NULL_PTR ∧
    (22 : Nat) ≠ 0 ∧
    c7CexState.e_alloc 22 = { filesize := 0, data_block := NULL_PTR } ∧
    (delete c7CexState 0).e_alloc 22 = { filesize := 58, data_block := NULL_PTR } ∧
    ¬ (delete c7CexState 0).e_alloc 22 = c7CexState.e_alloc 22 := by
  decide

/-- C7 (amended).  `delete f` (for a name in range) nulls the allocation
entry `{filesize 0, first_block null}` in RAM and mirrors exactly that
one entry to storage, leaving every other entry (and the metadata)
alone; a subsequent `open_for_read f` returns a null handle of size 0
and reports file-not-found; and when no file was present (`first_block`
already null), the block pool is untouched and the failed unlink is only
a logged error — all provided the cached free-chain head is a valid
block and every stored `next` pointer is null or a valid block (the
invariants of normal operation; once the free chain is exhausted the
tail write of `unlink` corrupts persisted entry 22 instead). -/
theorem C7_delete_isolates_amended (s : FS) (f : Nat) (hf : f < EEPROM_FS_MAX_FILES)
    (hnf : 0 ≤ s.next_free ∧ s.next_free < 59)
    (hnx : ∀ x : Nat, x < 59 → (s.blocks x).next_block = NULL_PTR ∨
      (0 ≤ (s.blocks x).next_block ∧ (s.blocks x).next_block < 59)) :
    (delete s f).alloc_table f = { filesize := 0, data_block := NULL_PTR } ∧
    (delete s f).e_alloc f = { filesize := 0, data_block := NULL_PTR } ∧
    (∀ g : Nat, g ≠ f → (delete s f).alloc_table g = s.alloc_table g) ∧
    (∀ g : Nat, g ≠ f → (delete s f).e_alloc g = s.e_alloc g) ∧
    (delete s f).e_meta = s.e_meta ∧
    (open_for_read (delete s f) f).2.first_block = NULL_PTR ∧
    (open_for_read (delete s f) f).2.filesize = 0 ∧
    Msg.fileNotFound f ∈ (open_for_read (delete s f) f).1.log ∧
    ((s.alloc_table f).data_block = NULL_PTR →
      (delete s f).blocks = s.blocks ∧ Msg.cannotUnlink NULL_PTR ∈ (delete s f).log) := by
  have hf' : f < 29 := hf
  have hnot : ¬ f > EEPROM_FS_MAX_FILES := by omega
  have hmod : f % EEPROM_FS_MAX_FILES = f := Nat.mod_eq_of_lt hf
  have hnf' : 0 ≤ (fsDebug 1 s (Msg.deleting f)).next_free ∧
      (fsDebug 1 s (Msg.deleting f)).next_free < 59 := by
    have h : (fsDebug 1 s (Msg.deleting f)).next_free = s.next_free := by
      rw [next_free_eq, fsDebug_alloc, next_free_eq]
    rw [h]
    exact hnf
  have hnx' : ∀ x : Nat, x < 59 →
      ((fsDebug 1 s (Msg.deleting f)).blocks x).next_block = NULL_PTR ∨
      (0 ≤ ((fsDebug 1 s (Msg.deleting f)).blocks x).next_block ∧
        ((fsDebug 1 s (Msg.deleting f)).blocks x).next_block < 59) := by
    intro x hx
    rw [fsDebug_blocks]
    exact hnx x hx
  have hd : delete s f =
      fsDebug 1 (setEAlloc (setAlloc (unlink (fsDebug 1 s (Msg.deleting f))
          ((s.alloc_table f).data_block)) f { filesize := 0, data_block := NULL_PTR })
        f { filesize := 0, data_block := NULL_PTR }) (Msg.deleted f) := by
    unfold delete
    dsimp only
    rw [if_neg hnot]
    dsimp only
    rw [hmod]
    simp [setAlloc_alloc]
  have ha : (delete s f).alloc_table f = { filesize := 0, data_block := NULL_PTR } := by
    rw [hd]
    simp [setAlloc_alloc]
  have hea : (delete s f).e_alloc f = { filesize := 0, data_block := NULL_PTR } := by
    rw [hd]
    simp [setEAlloc_e_alloc]
  refine ⟨ha, hea, ?_, ?_, ?_, ?_, ?_, ?_, ?_⟩
  · intro g hg
    rw [hd]
    simp only [fsDebug_alloc, setEAlloc_alloc, setAlloc_alloc, if_neg hg, unlink_alloc,
      fsDebug_alloc]
  · intro g hg
    rw [hd]
    simp only [fsDebug_e_alloc, setEAlloc_e_alloc, if_neg hg, setAlloc_e_alloc]
    rw [unlink_e_alloc_wf _ _ hnf' hnx']
    rw [fsDebug_e_alloc]
  · rw [hd]
    simp only [fsDebug_e_meta, setEAlloc_e_meta, setAlloc_e_meta]
    rw [unlink_e_meta_wf _ _ hnf' hnx']
    rw [fsDebug_e_meta]
  · unfold open_for_read
    dsimp only
    rw [if_neg hnot]
    dsimp only
    split <;> simp [ha]
  · unfold open_for_read
    dsimp only
    rw [if_neg hnot]
    dsimp only
    split <;> simp [ha]
  · unfold open_for_read
    dsimp only
    rw [if_neg hnot]
    dsimp only
    rw [if_pos (by simp [ha])]
    simp only [fsError_log]
    exact List.mem_cons_self _ _
  · intro h0
    constructor
    · rw [hd]
      simp only [fsDebug_blocks, setEAlloc_blocks, setAlloc_blocks, h0, unlink_null,
        fsError_blocks]
    · rw [hd]
      apply fsDebug_log_mem
      simp only [setEAlloc_log, setAlloc_log, h0, unlink_null, fsError_log]
      exact List.mem_cons_self _ _

/-- C7 witness: a freshly formatted filesystem (whose free head is block
58 and whose stored nexts all descend or end in the sentinel) and name
6. -/
theorem C7_delete_isolates_witness :
    6 < EEPROM_FS_MAX_FILES ∧
    (0 ≤ fs0.next_free ∧ fs0.next_free < 59) ∧
    (∀ x : Nat, x < 59 → (fs0.blocks x).next_block = NULL_PTR ∨
      (0 ≤ (fs0.blocks x).next_block ∧ (fs0.blocks x).next_block < 59)) ∧
    ((delete fs0 6).alloc_table 6 = { filesize := 0, data_block := NULL_PTR } ∧
    (delete fs0 6).e_alloc 6 = { filesize := 0, data_block := NULL_PTR } ∧
    (∀ g : Nat, g ≠ 6 → (delete fs0 6).alloc_table g = fs0.alloc_table g) ∧
    (∀ g : Nat, g ≠ 6 → (delete fs0 6).e_alloc g = fs0.e_alloc g) ∧
    (delete fs0 6).e_meta = fs0.e_meta ∧
    (open_for_read (delete fs0 6) 6).2.first_block = NULL_PTR ∧
    (open_for_read (delete fs0 6) 6).2.filesize = 0 ∧
    Msg.fileNotFound 6 ∈ (open_for_read (delete fs0 6) 6).1.log ∧
    ((fs0.alloc_table 6).data_block = NULL_PTR →
      (delete fs0 6).blocks = fs0.blocks ∧
        Msg.cannotUnlink NULL_PTR ∈ (delete fs0 6).log)) :=
  ⟨by decide, by decide, by decide,
   C7_delete_isolates_amended fs0 6 (by decide) (by decide) (by decide)⟩

end EepromFs
